import Mathlib

/-!
Verification of the movie-recommender core (`src/backend.py`), the history
sinks (`src/sauvegarde.py`) and the history parsing in `app.py`, as a shallow
embedding in Lean 4.

Modelling conventions:
* A pandas `DataFrame` of ratings is a `List RatingRow`; the 3-row user
  profile is a `List ProfileRow`; a pandas `Series` is an association list
  `List (String × ℝ)` whose first components form its index.
* Python floats are modelled by exact real numbers `ℝ` (ratings, which come
  from 0.5-step sliders, are carried as `ℚ` and coerced where arithmetic
  mixes with similarities).  The IEEE special values produced by the
  division `weighted_ratings / similarity_sums` are modelled explicitly by
  the type `PVal` (`nan`, `inf`, `ninf`, or a finite `val`).
* Sorting (`Series.sort_values(ascending=False)`, Python `sorted` with
  `reverse=True`) is modelled by insertion sort on the corresponding
  descending relation; pandas puts NaN last (`na_position='last'`), which
  `PVal.descBefore` reproduces.
* String processing (Python `split`, `strip`, `splitlines`, `startswith`,
  slicing) is modelled on `List Char`, one definition per Python operation;
  Python indexes strings by code points, exactly like `List Char`.
-/

/-- Code-point lexicographic comparison of char lists; mirrors Python's
string `<` (and hence the ordering pandas uses for string indexes). -/
def strLeChars : List Char → List Char → Bool
  | [], _ => true
  | _ :: _, [] => false
  | a :: as, b :: bs =>
      if a.val < b.val then true
      else if b.val < a.val then false
      else strLeChars as bs

/-- Code-point lexicographic `≤` on strings (Python string ordering). -/
def strLe (s t : String) : Bool := strLeChars s.data t.data

instance (a b : String) : Decidable (strLe a b = true) :=
  inferInstanceAs (Decidable (_ = true))

/-- First-occurrence deduplication, as `pandas.unique` does. -/
def uniqueFirst (l : List String) : List String :=
  l.foldl (fun acc t => if acc.contains t then acc else acc ++ [t]) []

/-- Sorted list of the distinct members of `l`: the index pandas builds for
a pivot table axis (sorted union of labels). -/
def sortedUniq (l : List String) : List String :=
  List.insertionSort (fun a b => strLe a b = true) (uniqueFirst l)

/-- One row of the ratings dataset (`userId`, `title`, `rating`, `genres`). -/
structure RatingRow where
  userId : String
  title : String
  rating : ℚ
  genres : String
deriving DecidableEq, Inhabited

/-- One row of the interactively built user profile. -/
structure ProfileRow where
  title : String
  rating : ℚ
  genres : String
deriving DecidableEq, Inhabited

def profileTitles (profile : List ProfileRow) : List String := profile.map (·.title)

/-- Column labels of `df.pivot_table(index='userId', columns='title',
values='rating')`: the sorted distinct titles. -/
def datasetTitles (df : List RatingRow) : List String := sortedUniq (df.map (·.title))

/-- Row labels of the pivot table: the sorted distinct user ids. -/
def datasetUsers (df : List RatingRow) : List String := sortedUniq (df.map (·.userId))

/-- The ratings aggregated into pivot cell `(u, t)`. -/
def cellRatings (df : List RatingRow) (u t : String) : List ℚ :=
  (df.filter (fun r => r.userId == u && r.title == t)).map (·.rating)

/-- Value of the pivot table at `(u, t)`: the mean rating (pivot_table's
default aggregation), with empty cells set to `0` by `.fillna(0)`. -/
def pivotVal (df : List RatingRow) (u t : String) : ℚ :=
  let c := cellRatings df u t
  if c.isEmpty then 0 else c.sum / c.length

/-- Dot product of rational vectors. -/
def dotQ (x y : List ℚ) : ℚ := (List.zipWith (fun a b => a * b) x y).sum

/-- Cosine similarity of two vectors, as `sklearn.metrics.pairwise
.cosine_similarity` computes entrywise.  In `ℝ` division by zero yields `0`,
which coincides with sklearn's handling of zero vectors (it replaces zero
norms by 1, making every similarity with a zero vector equal to 0). -/
noncomputable def cosineSim (x y : List ℚ) : ℝ :=
  ((dotQ x y : ℚ) : ℝ) /
    (Real.sqrt ((dotQ x x : ℚ) : ℝ) * Real.sqrt ((dotQ y y : ℚ) : ℝ))

/-- Index (first components) of a series. -/
def seriesKeys (a : List (String × ℝ)) : List String := a.map Prod.fst

/-- Lookup in a series, defaulting to `0` (the `fill_value=0` convention). -/
def seriesGet (a : List (String × ℝ)) (k : String) : ℝ :=
  ((a.find? (fun p => p.1 == k)).map Prod.snd).getD 0

/-- `Series.add(other, fill_value=0)`: values summed over the union of the
two indexes, absent labels counted as 0.  (pandas sorts the union index;
for the aligned or empty indexes arising here that is the behaviour.) -/
def seriesAdd (a b : List (String × ℝ)) : List (String × ℝ) :=
  (sortedUniq (seriesKeys a ++ seriesKeys b)).map
    (fun k => (k, seriesGet a k + seriesGet b k))

/-- Column of the pivot table for title `t` (one entry per user). -/
def itemCol (df : List RatingRow) (t : String) : List ℚ :=
  (datasetUsers df).map (fun u => pivotVal df u t)

/-- Entry of the title×title cosine-similarity matrix
(`cosine_similarity(pivot.T)` indexed by titles). -/
noncomputable def itemSim (df : List RatingRow) (t s : String) : ℝ :=
  cosineSim (itemCol df t) (itemCol df s)

/-- `similarity_df[movie] * rating`: the similarity column of `movie`
weighted by the user's rating, indexed by all titles. -/
noncomputable def itemSimSeries (df : List RatingRow) (movie : String) (rating : ℚ) :
    List (String × ℝ) :=
  (datasetTitles df).map (fun t => (t, itemSim df t movie * (rating : ℝ)))

/-- The accumulation loop of `get_item_user_recommendations`: for each
profile row whose title is a column of the similarity matrix, add the
weighted similarity column to the running score series. -/
noncomputable def itemUserScores (df : List RatingRow) (profile : List ProfileRow) :
    List (String × ℝ) :=
  profile.foldl
    (fun scores row =>
      if (datasetTitles df).contains row.title then
        seriesAdd scores (itemSimSeries df row.title row.rating)
      else scores)
    []

/-- `Series.sort_values(ascending=False)` / `sorted(..., reverse=True)` on
real-valued scores. -/
noncomputable def sortDescR (l : List (String × ℝ)) : List (String × ℝ) :=
  List.insertionSort (fun p q => q.2 ≤ p.2) l

/-- `get_item_user_recommendations(df, user_profile, top_n)`:
item-based collaborative scores, profile titles dropped, sorted
descending, truncated to `top_n`. -/
noncomputable def get_item_user_recommendations (df : List RatingRow)
    (profile : List ProfileRow) (top_n : ℕ) : List (String × ℝ) :=
  (sortDescR ((itemUserScores df profile).filter
    (fun p => !(profileTitles profile).contains p.1))).take top_n

/-- IEEE-754 value as produced by pandas float arithmetic: NaN, ±infinity,
or a finite value (modelled exactly in `ℝ`). -/
inductive PVal where
  | nan : PVal
  | inf : PVal
  | ninf : PVal
  | val : ℝ → PVal

/-- Float division `a / b` of finite values: `0/0 = NaN`, `±x/0 = ±inf`,
otherwise finite. -/
noncomputable def pdiv (a b : ℝ) : PVal :=
  if b = 0 then (if a = 0 then PVal.nan else if 0 < a then PVal.inf else PVal.ninf)
  else PVal.val (a / b)

/-- The synthetic user id `"new_user"` added by the user-based and
model-based scorers. -/
def newUserId : String := "new_user"

/-- Rating the profile assigns to title `t` (`0` if absent); later profile
rows overwrite earlier ones, as the `user_vector[row['title']] = ...` loop
does. -/
def profRating (profile : List ProfileRow) (t : String) : ℚ :=
  (((profile.filter (fun r => r.title == t)).getLast?).map (·.rating)).getD 0

/-- Row labels of the pivot table after `pivot.loc["new_user"] = user_vector`:
appended at the end, unless a dataset user is already called `"new_user"`,
in which case `.loc` overwrites that row in place. -/
def augUsers (df : List RatingRow) : List String :=
  if (datasetUsers df).contains newUserId then datasetUsers df
  else datasetUsers df ++ [newUserId]

/-- Row of the augmented pivot table for user `u`, as a vector over the
sorted title index.  The `"new_user"` row holds the profile ratings (0 for
unrated titles); every other row holds the pivot values. -/
def userRow (df : List RatingRow) (profile : List ProfileRow) (u : String) : List ℚ :=
  if u == newUserId then (datasetTitles df).map (fun t => profRating profile t)
  else (datasetTitles df).map (fun t => pivotVal df u t)

/-- Entry of `cosine_similarity(pivot)` between user `u` and the synthetic
user. -/
noncomputable def simToNew (df : List RatingRow) (profile : List ProfileRow)
    (u : String) : ℝ :=
  cosineSim (userRow df profile u) (userRow df profile newUserId)

/-- `similarity_df[new_user_id].drop(index=new_user_id)
.sort_values(ascending=False)`: the other users paired with their
similarity to the synthetic user, sorted by similarity descending. -/
noncomputable def similarUsers (df : List RatingRow) (profile : List ProfileRow) :
    List (String × ℝ) :=
  sortDescR (((augUsers df).filter (fun u => u != newUserId)).map
    (fun u => (u, simToNew df profile u)))

/-- `ratings * sim` for user `u`: the user's pivot row scaled by the
similarity, over the title index. -/
noncomputable def ratingSeries (df : List RatingRow) (u : String) (s : ℝ) :
    List (String × ℝ) :=
  (datasetTitles df).map (fun t => (t, (pivotVal df u t : ℝ) * s))

/-- `(ratings != 0) * sim` for user `u`: indicator of the titles the user
actually rated (nonzero pivot entry) scaled by the similarity. -/
noncomputable def maskSeries (df : List RatingRow) (u : String) (s : ℝ) :
    List (String × ℝ) :=
  (datasetTitles df).map
    (fun t => (t, (if pivotVal df u t ≠ 0 then (1 : ℝ) else 0) * s))

/-- The accumulation loop of `get_user_user_recommendations`: fold over the
similar users building `weighted_ratings` and `similarity_sums` with
`Series.add(..., fill_value=0)` starting from empty series. -/
noncomputable def uuAccum (df : List RatingRow) (profile : List ProfileRow) :
    List (String × ℝ) × List (String × ℝ) :=
  (similarUsers df profile).foldl
    (fun acc p =>
      (seriesAdd acc.1 (ratingSeries df p.1 p.2),
       seriesAdd acc.2 (maskSeries df p.1 p.2)))
    ([], [])

/-- Elementwise float division of two aligned series
(`weighted_ratings / similarity_sums`), over the union of their indexes. -/
noncomputable def seriesDiv (a b : List (String × ℝ)) : List (String × PVal) :=
  (sortedUniq (seriesKeys a ++ seriesKeys b)).map
    (fun k => (k, pdiv (seriesGet a k) (seriesGet b k)))

/-- "`a` may come before `b`" in the order produced by
`sort_values(ascending=False)` on floats: NaN is placed after everything
(`na_position='last'`), `inf` before all finite values, `-inf` after them. -/
def PVal.descBefore : PVal → PVal → Prop
  | _, PVal.nan => True
  | PVal.nan, _ => False
  | PVal.inf, _ => True
  | _, PVal.inf => False
  | _, PVal.ninf => True
  | PVal.ninf, _ => False
  | PVal.val a, PVal.val b => b ≤ a

noncomputable instance : DecidableRel PVal.descBefore := fun a b => by
  cases a <;> cases b <;> simp only [PVal.descBefore] <;> infer_instance

/-- IEEE float comparison `a >= b`: false whenever either side is NaN. -/
def PVal.fge : PVal → PVal → Prop
  | PVal.nan, _ => False
  | _, PVal.nan => False
  | PVal.inf, _ => True
  | _, PVal.inf => False
  | _, PVal.ninf => True
  | PVal.val a, PVal.val b => b ≤ a
  | PVal.ninf, _ => False

/-- Descending sort of a float-valued series, NaN last. -/
noncomputable def sortDescP (l : List (String × PVal)) : List (String × PVal) :=
  List.insertionSort (fun p q => PVal.descBefore p.2 q.2) l

/-- `get_user_user_recommendations(df, user_profile, top_n)`: normalized
user-based collaborative scores (a float division, hence possibly NaN/inf),
profile titles dropped, sorted descending with NaN last, truncated. -/
noncomputable def get_user_user_recommendations (df : List RatingRow)
    (profile : List ProfileRow) (top_n : ℕ) : List (String × PVal) :=
  (sortDescP (((seriesDiv (uuAccum df profile).1 (uuAccum df profile).2)).filter
    (fun p => !(profileTitles profile).contains p.1))).take top_n

/-- The three algorithm families the latent-factor scorer accepts. -/
inductive AlgoKind where
  | svd : AlgoKind
  | knn : AlgoKind
  | nmf : AlgoKind
deriving DecidableEq

/-- The string dispatch on `algo_name` (`"SVD"`, `"KNN"`, `"NMF"`, anything
else is rejected). -/
def parseAlgoName (s : String) : Option AlgoKind :=
  if s = "SVD" then some AlgoKind.svd
  else if s = "KNN" then some AlgoKind.knn
  else if s = "NMF" then some AlgoKind.nmf
  else none

/-- A `(userId, title, rating)` triple of the Surprise training frame. -/
abbrev TrainRow := String × String × ℚ

/-- `get_model_based_recommendations(df, user_profile, algo_name, top_n)`.
The Surprise library is external; its training-plus-prediction behaviour is
a parameter `fit`: given an algorithm family and the training rows it
returns the trained model's `predict(uid, iid).est`, with `none` standing
for `PredictionImpossible` (such titles are skipped).  An unrecognized
`algo_name` raises `ValueError` before `algo.fit` runs, which is why the
result never depends on `fit` in that case. -/
noncomputable def get_model_based_recommendations
    (fit : AlgoKind → List TrainRow → String → String → Option ℝ)
    (df : List RatingRow) (profile : List ProfileRow)
    (algo_name : String) (top_n : ℕ) : Except String (List (String × ℝ)) :=
  let data := df.map (fun r => (r.userId, r.title, r.rating)) ++
    profile.map (fun p => (newUserId, p.title, p.rating))
  match parseAlgoName algo_name with
  | none => Except.error "Algorithme non reconnu. Utilisez 'SVD', 'KNN' ou 'NMF'."
  | some k =>
      let predict := fit k data
      let unseen := (uniqueFirst (df.map (·.title))).filter
        (fun t => !(profileTitles profile).contains t)
      let preds := unseen.filterMap
        (fun t => (predict newUserId t).map (fun e => (t, e)))
      Except.ok ((sortDescR preds).take top_n)

/-- Recommendation list carried by an `Except` result (`[]` for the error
case); lets claims about "the returned list" cover both outcomes. -/
def exceptRecs (e : Except String (List (String × ℝ))) : List (String × ℝ) :=
  e.toOption.getD []

/-- Recommendation list carried by an `Option` result. -/
def optRecs (o : Option (List (String × ℝ))) : List (String × ℝ) := o.getD []

/-- Fuel-driven worker for Python's `str.split(sep)` (non-overlapping,
leftmost-first, empty pieces kept).  Fuel keeps the recursion structural so
that concrete instances reduce; `pySplit` supplies enough fuel. -/
def pySplitFuel (sep : List Char) : ℕ → List Char → List (List Char)
  | 0, l => [l]
  | _ + 1, [] => [[]]
  | fuel + 1, c :: rest =>
      if sep.isPrefixOf (c :: rest) then
        [] :: pySplitFuel sep fuel ((c :: rest).drop sep.length)
      else
        match pySplitFuel sep fuel rest with
        | [] => [[c]]
        | piece :: pieces => (c :: piece) :: pieces

/-- Python `s.split(sep)` for a nonempty separator. -/
def pySplit (sep l : List Char) : List (List Char) :=
  pySplitFuel sep (l.length + 1) l

/-- The whitespace class Python's `str.strip()` removes (the ASCII part,
which is all that occurs in the history format). -/
def isPySpace (c : Char) : Bool :=
  c == ' ' || c == '\t' || c == '\n' || c == '\r' || c == '\x0b' || c == '\x0c'

/-- Python `s.strip()`. -/
def pyStrip (l : List Char) : List Char :=
  (l.dropWhile isPySpace).rdropWhile isPySpace

/-- Python `genres.split('|')` from the content-based scorers. -/
def splitPipe (s : String) : List String :=
  (pySplit ['|'] s.data).map (fun l => String.mk l)

/-- `MultiLabelBinarizer().fit(...).classes_`: the sorted distinct genre
labels of the whole catalog. -/
def mlbClasses (df : List RatingRow) : List String :=
  sortedUniq (df.flatMap (fun r => splitPipe r.genres))

/-- One-hot encoding of a genre list over the fitted classes
(`mlb.transform` silently ignores labels outside the classes). -/
def encodeGenres (classes : List String) (gs : List String) : List ℚ :=
  classes.map (fun c => if gs.contains c then (1 : ℚ) else 0)

def vecScale (c : ℚ) (v : List ℚ) : List ℚ := v.map (fun x => c * x)

def vecAdd (x y : List ℚ) : List ℚ := List.zipWith (fun a b => a + b) x y

/-- `np.average(rows, axis=0, weights=w)`: the weighted column average.
When the weights sum to zero numpy raises `ZeroDivisionError` ("Weights sum
to zero, can't be normalized"), modelled by `none`. -/
def npAverageW (rows : List (List ℚ)) (w : List ℚ) (dim : ℕ) : Option (List ℚ) :=
  if w.sum = 0 then none
  else some
    (((List.zipWith vecScale w rows).foldl vecAdd (List.replicate dim 0)).map
      (fun x => x / w.sum))

/-- `drop_duplicates(subset='title')`: keep the first row for each title. -/
def dedupByTitle (l : List (String × ℝ)) : List (String × ℝ) :=
  l.foldl (fun acc p => if (acc.map Prod.fst).contains p.1 then acc else acc ++ [p]) []

/-- Shared tail of the two content-based scorers: cosine similarity of a
query genre vector against every catalog row, exclusion of the profile
titles, title deduplication, descending sort, truncation. -/
noncomputable def contentRank (df : List RatingRow) (query : List ℚ)
    (excl : List String) (top_n : ℕ) : List (String × ℝ) :=
  let classes := mlbClasses df
  let results := df.map
    (fun r => (r.title, cosineSim query (encodeGenres classes (splitPipe r.genres))))
  (sortDescR (dedupByTitle (results.filter (fun p => !excl.contains p.1)))).take top_n

/-- `get_content_based_recommendations(df, user_profile, top_n)`: the query
vector is the rating-weighted average of the profile's one-hot genre
vectors; `np.average` fails when the three ratings sum to zero, so the
result is an `Option`. -/
noncomputable def get_content_based_recommendations (df : List RatingRow)
    (profile : List ProfileRow) (top_n : ℕ) : Option (List (String × ℝ)) :=
  let classes := mlbClasses df
  let userMat := profile.map (fun p => encodeGenres classes (splitPipe p.genres))
  match npAverageW userMat (profile.map (·.rating)) classes.length with
  | none => none
  | some uvec => some (contentRank df uvec (profileTitles profile) top_n)

/-- Maximum of a rating column (`0` for an empty one, unused). -/
def listMaxQ : List ℚ → ℚ
  | [] => 0
  | x :: r => r.foldl max x

/-- `Series.idxmax` on a positional index: the first position carrying the
maximum value. -/
def firstMaxIdx (l : List ℚ) : ℕ := l.indexOf (listMaxQ l)

/-- `get_content_based_on_best_rated(df, user_profile, top_n)`: the query
vector is the one-hot genre vector of the profile row selected by
`user_profile['rating'].idxmax()`. -/
noncomputable def get_content_based_on_best_rated (df : List RatingRow)
    (profile : List ProfileRow) (top_n : ℕ) : List (String × ℝ) :=
  let best := profile.getD (firstMaxIdx (profile.map (·.rating))) default
  contentRank df (encodeGenres (mlbClasses df) (splitPipe best.genres))
    (profileTitles profile) top_n

/-- Python `round(q, 2)` on the exact value (rounding model; the history
claims do not depend on the tie-breaking convention). -/
def round2 (q : ℚ) : ℚ := (⌊q * 100 + 1 / 2⌋ : ℤ) / 100

/-- The 50-dash record delimiter of the text history log. -/
def dash50 : List Char := List.replicate 50 '-'

/-- `f"- {row['title']} - Note : {row['rating']}\n"` (numeric rendering
modelled by `ℚ`'s `toString`). -/
def profileLine (r : ProfileRow) : List Char :=
  "- ".data ++ r.title.data ++ " - Note : ".data ++ (toString r.rating).data ++ ['\n']

/-- `f"- {row['title']} - Score : {round(row['score'], 2)}\n"`. -/
def recLine (p : String × ℚ) : List Char :=
  "- ".data ++ p.1.data ++ " - Score : ".data ++ (toString (round2 p.2)).data ++ ['\n']

/-- The block `append_user_history_as_text` writes for one session, in the
exact order of its `f.write` calls.  The method marker is the two code
points U+2699 U+FE0F, as in the source. -/
def sessionBlock (userName : String) (profile : List ProfileRow)
    (method : String) (recs : List (String × ℚ)) : List Char :=
  "👤 ".data ++ userName.data ++ ['\n'] ++
  "⚙️ Méthode : ".data ++ method.data ++ ['\n', '\n'] ++
  "🎬 Films notés :\n".data ++
  (profile.flatMap profileLine) ++
  "\n⭐ Recommandations :\n".data ++
  (recs.flatMap recLine) ++
  ['\n'] ++ dash50 ++ ['\n', '\n']

/-- `append_user_history_as_text(...)` on a log opened in append mode: the
new session block is appended to the current contents. -/
def append_user_history_as_text (log : List Char) (userName : String)
    (profile : List ProfileRow) (method : String) (recs : List (String × ℚ)) :
    List Char :=
  log ++ sessionBlock userName profile method recs

/-- The `"👤"` marker tested by `l.startswith(...)` in the sidebar parser. -/
def userMarkerChars : List Char := "👤".data

/-- The `"⚙️"` marker (U+2699 U+FE0F) tested by the sidebar parser. -/
def gearMarkerChars : List Char := "⚙️".data

/-- The sidebar parsing of one session: `session.strip().splitlines()`,
first line starting with the user marker (default "Utilisateur inconnu"),
first line starting with the method marker (default ""), then the pair
`(user_line[2:].strip(), method_line[10:].strip())` the expander title
displays.  After the strip, `splitlines` coincides with splitting on
`'\n'` (the log contains no other line separators). -/
def parseSession (session : List Char) : String × String :=
  let lines := pySplit ['\n'] (pyStrip session)
  let userLine := (lines.find? (fun l => userMarkerChars.isPrefixOf l)).getD
    "Utilisateur inconnu".data
  let methodLine := (lines.find? (fun l => gearMarkerChars.isPrefixOf l)).getD []
  (String.mk (pyStrip (userLine.drop 2)), String.mk (pyStrip (methodLine.drop 10)))

/-- The whole sidebar history parse: `full_text.strip().split("-" * 50)`,
keeping the chunks with nonempty strip, each parsed by `parseSession`. -/
def parseHistory (log : List Char) : List (String × String) :=
  ((pySplit dash50 (pyStrip log)).filter (fun s => !(pyStrip s).isEmpty)).map
    parseSession

/-- A dataframe value as `save_user_profile` sees it: profile rows plus the
optional `method` column the function adds. -/
structure PDFrame where
  rows : List ProfileRow
  methodCol : Option String
deriving DecidableEq, Inhabited

/-- A heap of dataframe objects; Python variables hold indexes into it, so
mutation and `.copy()` are observable. -/
abbrev PStore := List PDFrame

/-- `df.copy()`: allocate a fresh object with the same value. -/
def dfCopy (s : PStore) (i : ℕ) : PStore × ℕ :=
  (s ++ [s.getD i default], s.length)

/-- `df['method'] = m`: in-place mutation of the object at `i`. -/
def dfSetMethod (s : PStore) (i : ℕ) (m : String) : PStore :=
  s.set i { s.getD i default with methodCol := some m }

/-- One row of the cumulative tabular history log. -/
structure HistEntry where
  title : String
  rating : ℚ
  genres : String
  method : String
deriving DecidableEq, Inhabited

/-- `save_user_profile(user_profile, method, filepath)`: copy the caller's
dataframe, add the `method` column to the copy, and write the existing log
(if any) concatenated with the copy's rows.  Returns the heap after the
call together with the new log contents. -/
def save_user_profile (s : PStore) (profileId : ℕ) (method : String)
    (existing : Option (List HistEntry)) : PStore × List HistEntry :=
  let c := dfCopy s profileId
  let s2 := dfSetMethod c.1 c.2 method
  let prof := s2.getD c.2 default
  let newRows := prof.rows.map
    (fun r => HistEntry.mk r.title r.rating r.genres (prof.methodCol.getD ""))
  (s2, match existing with
       | some h => h ++ newRows
       | none => newRows)

/-! ## Generic lemmas about the embedded pandas primitives -/

lemma perm_sortDescR (l : List (String × ℝ)) : (sortDescR l).Perm l :=
  List.perm_insertionSort _ l

lemma perm_sortDescP (l : List (String × PVal)) : (sortDescP l).Perm l :=
  List.perm_insertionSort _ l

lemma mem_fst_of_take_sortDescR {t : String} {l : List (String × ℝ)} {n : ℕ}
    (h : t ∈ ((sortDescR l).take n).map Prod.fst) : t ∈ l.map Prod.fst := by
  have h1 : ((sortDescR l).take n).Sublist (sortDescR l) := List.take_sublist n _
  have h2 : t ∈ (sortDescR l).map Prod.fst := (h1.map Prod.fst).subset h
  exact ((perm_sortDescR l).map Prod.fst).mem_iff.mp h2

lemma mem_fst_of_take_sortDescP {t : String} {l : List (String × PVal)} {n : ℕ}
    (h : t ∈ ((sortDescP l).take n).map Prod.fst) : t ∈ l.map Prod.fst := by
  have h1 : ((sortDescP l).take n).Sublist (sortDescP l) := List.take_sublist n _
  have h2 : t ∈ (sortDescP l).map Prod.fst := (h1.map Prod.fst).subset h
  exact ((perm_sortDescP l).map Prod.fst).mem_iff.mp h2

lemma not_mem_fst_filter_excl {t : String} {α : Type} {l : List (String × α)}
    {excl : List String} (ht : t ∈ excl) :
    t ∉ (l.filter (fun p => !excl.contains p.1)).map Prod.fst := by
  intro h
  rcases List.mem_map.mp h with ⟨p, hp, hpt⟩
  have := List.mem_filter.mp hp
  rcases this with ⟨_, hpred⟩
  rw [hpt] at hpred
  simp only [Bool.not_eq_true'] at hpred
  simp at hpred
  exact hpred ht

lemma nodup_fst_take_sortDescR {l : List (String × ℝ)} {n : ℕ}
    (h : (l.map Prod.fst).Nodup) : (((sortDescR l).take n).map Prod.fst).Nodup := by
  have h2 : ((sortDescR l).map Prod.fst).Nodup :=
    (((perm_sortDescR l).map Prod.fst).nodup_iff).mpr h
  exact ((List.take_sublist n _).map Prod.fst).nodup h2

lemma nodup_fst_take_sortDescP {l : List (String × PVal)} {n : ℕ}
    (h : (l.map Prod.fst).Nodup) : (((sortDescP l).take n).map Prod.fst).Nodup := by
  have h2 : ((sortDescP l).map Prod.fst).Nodup :=
    (((perm_sortDescP l).map Prod.fst).nodup_iff).mpr h
  exact ((List.take_sublist n _).map Prod.fst).nodup h2

lemma nodup_fst_filter {α : Type} {l : List (String × α)} {p : String × α → Bool}
    (h : (l.map Prod.fst).Nodup) : ((l.filter p).map Prod.fst).Nodup :=
  ((l.filter_sublist).map Prod.fst).nodup h

lemma uniqueFirst_go_nodup (l : List String) :
    ∀ acc : List String, acc.Nodup →
      (l.foldl (fun acc t => if acc.contains t then acc else acc ++ [t]) acc).Nodup := by
  induction l with
  | nil => intro acc h; simpa using h
  | cons x xs ih =>
      intro acc h
      simp only [List.foldl_cons]
      by_cases hx : acc.contains x
      · rw [if_pos hx]; exact ih acc h
      · rw [if_neg hx]
        refine ih _ ?_
        have hxm : x ∉ acc := by
          simpa using hx
        simp [List.nodup_append, h, hxm]

lemma uniqueFirst_nodup (l : List String) : (uniqueFirst l).Nodup :=
  uniqueFirst_go_nodup l [] List.nodup_nil

lemma sortedUniq_nodup (l : List String) : (sortedUniq l).Nodup :=
  ((List.perm_insertionSort _ _).nodup_iff).mpr (uniqueFirst_nodup l)

lemma uniqueFirst_go_mem (l : List String) :
    ∀ acc : List String, ∀ t : String,
      (t ∈ l.foldl (fun acc t => if acc.contains t then acc else acc ++ [t]) acc ↔
        t ∈ acc ∨ t ∈ l) := by
  induction l with
  | nil => intro acc t; simp
  | cons x xs ih =>
      intro acc t
      simp only [List.foldl_cons]
      by_cases hx : acc.contains x
      · rw [if_pos hx]
        rw [ih acc t]
        have hxm : x ∈ acc := by simpa using hx
        constructor
        · rintro (h | h)
          · exact Or.inl h
          · exact Or.inr (List.mem_cons_of_mem _ h)
        · rintro (h | h)
          · exact Or.inl h
          · rcases List.mem_cons.mp h with rfl | h
            · exact Or.inl hxm
            · exact Or.inr h
      · rw [if_neg hx]
        rw [ih _ t]
        simp only [List.mem_append, List.mem_singleton, List.mem_cons]
        tauto

lemma mem_sortedUniq {l : List String} {t : String} : t ∈ sortedUniq l ↔ t ∈ l := by
  unfold sortedUniq
  rw [(List.perm_insertionSort _ _).mem_iff]
  unfold uniqueFirst
  rw [uniqueFirst_go_mem l [] t]
  simp

lemma seriesKeys_seriesAdd (a b : List (String × ℝ)) :
    seriesKeys (seriesAdd a b) = sortedUniq (seriesKeys a ++ seriesKeys b) := by
  unfold seriesAdd seriesKeys
  rw [List.map_map]
  have hid : (Prod.fst ∘ fun k => (k, seriesGet a k + seriesGet b k)) =
      (id : String → String) := rfl
  rw [hid, List.map_id]

lemma nodup_keys_seriesAdd (a b : List (String × ℝ)) :
    (seriesKeys (seriesAdd a b)).Nodup := by
  rw [seriesKeys_seriesAdd]; exact sortedUniq_nodup _

lemma mem_fst_filterMapPredict {f : String → Option ℝ} {l : List String} {t : String}
    (h : t ∈ (l.filterMap (fun s => (f s).map (fun e => (s, e)))).map Prod.fst) :
    t ∈ l := by
  rcases List.mem_map.mp h with ⟨p, hp, hpt⟩
  rcases List.mem_filterMap.mp hp with ⟨a, ha, hfa⟩
  cases hm : f a with
  | none => rw [hm] at hfa; simp at hfa
  | some e =>
      rw [hm] at hfa
      simp only [Option.map_some'] at hfa
      have hpe : (a, e) = p := Option.some.inj hfa
      rw [← hpe] at hpt
      simpa [← hpt] using ha

lemma fst_filterMapPredict_sublist (f : String → Option ℝ) (l : List String) :
    ((l.filterMap (fun s => (f s).map (fun e => (s, e)))).map Prod.fst).Sublist l := by
  induction l with
  | nil => simp
  | cons x xs ih =>
      cases hm : f x with
      | none =>
          simp only [List.filterMap_cons, hm, Option.map_none']
          exact ih.cons x
      | some e =>
          simp only [List.filterMap_cons, hm, Option.map_some', List.map_cons]
          exact ih.cons₂ x

lemma dedup_go_mem_fst (l : List (String × ℝ)) :
    ∀ (acc : List (String × ℝ)) (t : String),
      t ∈ (l.foldl
        (fun acc p => if (acc.map Prod.fst).contains p.1 then acc else acc ++ [p])
        acc).map Prod.fst →
      t ∈ acc.map Prod.fst ∨ t ∈ l.map Prod.fst := by
  induction l with
  | nil => intro acc t h; exact Or.inl (by simpa using h)
  | cons x xs ih =>
      intro acc t h
      simp only [List.foldl_cons] at h
      by_cases hx : (acc.map Prod.fst).contains x.1
      · rw [if_pos hx] at h
        rcases ih acc t h with h1 | h1
        · exact Or.inl h1
        · exact Or.inr (by simp [h1])
      · rw [if_neg hx] at h
        rcases ih _ t h with h1 | h1
        · simp only [List.map_append, List.mem_append] at h1
          rcases h1 with h1 | h1
          · exact Or.inl h1
          · simp only [List.map_cons, List.mem_cons]
            right; left
            simpa using h1
        · exact Or.inr (by simp [h1])

lemma mem_fst_dedupByTitle {l : List (String × ℝ)} {t : String}
    (h : t ∈ (dedupByTitle l).map Prod.fst) : t ∈ l.map Prod.fst := by
  rcases dedup_go_mem_fst l [] t h with h1 | h1
  · simp at h1
  · exact h1

lemma dedup_go_nodup (l : List (String × ℝ)) :
    ∀ acc : List (String × ℝ), (acc.map Prod.fst).Nodup →
      ((l.foldl
        (fun acc p => if (acc.map Prod.fst).contains p.1 then acc else acc ++ [p])
        acc).map Prod.fst).Nodup := by
  induction l with
  | nil => intro acc h; simpa using h
  | cons x xs ih =>
      intro acc h
      simp only [List.foldl_cons]
      by_cases hx : (acc.map Prod.fst).contains x.1
      · rw [if_pos hx]; exact ih acc h
      · rw [if_neg hx]
        refine ih _ ?_
        have hxm : x.1 ∉ acc.map Prod.fst := by simpa using hx
        simp [List.nodup_append, h, hxm]

lemma nodup_fst_dedupByTitle (l : List (String × ℝ)) :
    ((dedupByTitle l).map Prod.fst).Nodup :=
  dedup_go_nodup l [] (by simp)

lemma fst_itemSimSeries (df : List RatingRow) (m : String) (r : ℚ) :
    (itemSimSeries df m r).map Prod.fst = datasetTitles df := by
  unfold itemSimSeries
  rw [List.map_map]
  have hid : (Prod.fst ∘ fun t => (t, itemSim df t m * (r : ℝ))) =
      (id : String → String) := rfl
  rw [hid, List.map_id]

lemma itemUserScores_go_nodup (df : List RatingRow) (profile : List ProfileRow) :
    ∀ scores : List (String × ℝ), (seriesKeys scores).Nodup →
      (seriesKeys (profile.foldl
        (fun scores row =>
          if (datasetTitles df).contains row.title then
            seriesAdd scores (itemSimSeries df row.title row.rating)
          else scores)
        scores)).Nodup := by
  induction profile with
  | nil => intro scores h; simpa using h
  | cons x xs ih =>
      intro scores h
      simp only [List.foldl_cons]
      by_cases hx : (datasetTitles df).contains x.title
      · rw [if_pos hx]; exact ih _ (nodup_keys_seriesAdd _ _)
      · rw [if_neg hx]; exact ih _ h

lemma nodup_keys_itemUserScores (df : List RatingRow) (profile : List ProfileRow) :
    (seriesKeys (itemUserScores df profile)).Nodup :=
  itemUserScores_go_nodup df profile [] (by simp [seriesKeys])

lemma itemUserScores_go_sub (df : List RatingRow) (profile : List ProfileRow) :
    ∀ scores : List (String × ℝ),
      (∀ t ∈ seriesKeys scores, t ∈ datasetTitles df) →
      ∀ t ∈ seriesKeys (profile.foldl
        (fun scores row =>
          if (datasetTitles df).contains row.title then
            seriesAdd scores (itemSimSeries df row.title row.rating)
          else scores)
        scores), t ∈ datasetTitles df := by
  induction profile with
  | nil => intro scores h; simpa using h
  | cons x xs ih =>
      intro scores h
      simp only [List.foldl_cons]
      by_cases hx : (datasetTitles df).contains x.title
      · rw [if_pos hx]
        refine ih _ ?_
        intro t ht
        rw [seriesKeys_seriesAdd] at ht
        rw [mem_sortedUniq] at ht
        rcases List.mem_append.mp ht with h1 | h1
        · exact h t h1
        · unfold seriesKeys at h1
          rw [fst_itemSimSeries] at h1
          exact h1
      · rw [if_neg hx]; exact ih _ h

lemma keys_itemUserScores_sub (df : List RatingRow) (profile : List ProfileRow) :
    ∀ t ∈ seriesKeys (itemUserScores df profile), t ∈ datasetTitles df :=
  itemUserScores_go_sub df profile [] (by simp [seriesKeys])

lemma get_content_based_recommendations_def (df : List RatingRow)
    (profile : List ProfileRow) (n : ℕ) :
    get_content_based_recommendations df profile n =
      match npAverageW (profile.map (fun p => encodeGenres (mlbClasses df) (splitPipe p.genres)))
          (profile.map (·.rating)) (mlbClasses df).length with
      | none => none
      | some uvec => some (contentRank df uvec (profileTitles profile) n) := rfl

lemma not_mem_fst_contentRank {df : List RatingRow} {q : List ℚ}
    {excl : List String} {n : ℕ} {t : String} (ht : t ∈ excl) :
    t ∉ (contentRank df q excl n).map Prod.fst := by
  intro h
  unfold contentRank at h
  exact not_mem_fst_filter_excl ht (mem_fst_dedupByTitle (mem_fst_of_take_sortDescR h))

/-- C1.  For every strategy among the five scorers and every user profile of
3 distinct titles that all occur in the dataset, the returned recommendation
list contains none of the 3 profile titles.  (The exclusion is structural:
each scorer drops the profile titles before sorting and truncating.) -/
theorem all_strategies_exclude_profile_titles
    (df : List RatingRow) (profile : List ProfileRow) (top_n : ℕ)
    (fit : AlgoKind → List TrainRow → String → String → Option ℝ)
    (algo_name : String)
    (hlen : profile.length = 3)
    (hnodup : (profileTitles profile).Nodup)
    (hpresent : ∀ t ∈ profileTitles profile, t ∈ datasetTitles df) :
    ∀ t ∈ profileTitles profile,
      t ∉ (get_item_user_recommendations df profile top_n).map Prod.fst ∧
      t ∉ (get_user_user_recommendations df profile top_n).map Prod.fst ∧
      t ∉ (exceptRecs
        (get_model_based_recommendations fit df profile algo_name top_n)).map Prod.fst ∧
      t ∉ (optRecs (get_content_based_recommendations df profile top_n)).map Prod.fst ∧
      t ∉ (get_content_based_on_best_rated df profile top_n).map Prod.fst := by
  intro t ht
  refine ⟨?_, ?_, ?_, ?_, ?_⟩
  · intro h
    unfold get_item_user_recommendations at h
    exact not_mem_fst_filter_excl ht (mem_fst_of_take_sortDescR h)
  · intro h
    unfold get_user_user_recommendations at h
    exact not_mem_fst_filter_excl ht (mem_fst_of_take_sortDescP h)
  · intro h
    unfold get_model_based_recommendations at h
    cases hpa : parseAlgoName algo_name with
    | none => rw [hpa] at h; simp [exceptRecs, Except.toOption] at h
    | some k =>
        rw [hpa] at h
        simp only [exceptRecs, Except.toOption, Option.getD_some] at h
        have h2 := mem_fst_of_take_sortDescR h
        have h3 := mem_fst_filterMapPredict h2
        have h4 := List.mem_filter.mp h3
        rcases h4 with ⟨_, hpred⟩
        simp only [Bool.not_eq_true'] at hpred
        simp at hpred
        exact hpred ht
  · intro h
    rw [get_content_based_recommendations_def] at h
    cases hav : npAverageW (profile.map (fun p => encodeGenres (mlbClasses df) (splitPipe p.genres)))
        (profile.map (·.rating)) (mlbClasses df).length with
    | none => rw [hav] at h; simp [optRecs] at h
    | some uvec =>
        rw [hav] at h
        simp only [optRecs, Option.getD_some] at h
        exact not_mem_fst_contentRank ht h
  · intro h
    unfold get_content_based_on_best_rated at h
    exact not_mem_fst_contentRank ht h

def wDf : List RatingRow :=
  [RatingRow.mk "u1" "A" 5 "X", RatingRow.mk "u1" "B" 3 "Y",
   RatingRow.mk "u2" "C" 4 "X|Y", RatingRow.mk "u2" "D" 2 "Z"]

def wProfile : List ProfileRow :=
  [ProfileRow.mk "A" 5 "X", ProfileRow.mk "B" 3 "Y", ProfileRow.mk "C" 4 "X|Y"]

/-- Witness for C1 at a concrete dataset and profile. -/
theorem all_strategies_exclude_profile_titles_witness :
    wProfile.length = 3 ∧ (profileTitles wProfile).Nodup ∧
    (∀ t ∈ profileTitles wProfile, t ∈ datasetTitles wDf) ∧
    ∀ t ∈ profileTitles wProfile,
      t ∉ (get_item_user_recommendations wDf wProfile 5).map Prod.fst ∧
      t ∉ (get_user_user_recommendations wDf wProfile 5).map Prod.fst ∧
      t ∉ (exceptRecs (get_model_based_recommendations
        (fun _ _ _ _ => none) wDf wProfile "SVD" 5)).map Prod.fst ∧
      t ∉ (optRecs (get_content_based_recommendations wDf wProfile 5)).map Prod.fst ∧
      t ∉ (get_content_based_on_best_rated wDf wProfile 5).map Prod.fst :=
  ⟨by decide, by decide, by decide,
    all_strategies_exclude_profile_titles wDf wProfile 5 (fun _ _ _ _ => none) "SVD"
      (by decide) (by decide) (by decide)⟩

lemma fst_seriesDiv (a b : List (String × ℝ)) :
    (seriesDiv a b).map Prod.fst = sortedUniq (seriesKeys a ++ seriesKeys b) := by
  unfold seriesDiv
  rw [List.map_map]
  have hid : (Prod.fst ∘ fun k => (k, pdiv (seriesGet a k) (seriesGet b k))) =
      (id : String → String) := rfl
  rw [hid, List.map_id]

/-- C7.  For every strategy, dataset and user profile, the titles in the
returned recommendation list are pairwise distinct, even when the dataset
contains multiple rows for the same title: each scorer's candidate index is
duplicate-free by construction (pivot columns, `unique()`, or
`drop_duplicates`). -/
theorem all_strategies_output_titles_nodup
    (df : List RatingRow) (profile : List ProfileRow) (top_n : ℕ)
    (fit : AlgoKind → List TrainRow → String → String → Option ℝ)
    (algo_name : String) :
    ((get_item_user_recommendations df profile top_n).map Prod.fst).Nodup ∧
    ((get_user_user_recommendations df profile top_n).map Prod.fst).Nodup ∧
    ((exceptRecs (get_model_based_recommendations fit df profile algo_name
      top_n)).map Prod.fst).Nodup ∧
    ((optRecs (get_content_based_recommendations df profile top_n)).map Prod.fst).Nodup ∧
    ((get_content_based_on_best_rated df profile top_n).map Prod.fst).Nodup := by
  refine ⟨?_, ?_, ?_, ?_, ?_⟩
  · unfold get_item_user_recommendations
    exact nodup_fst_take_sortDescR (nodup_fst_filter (nodup_keys_itemUserScores df profile))
  · unfold get_user_user_recommendations
    refine nodup_fst_take_sortDescP (nodup_fst_filter ?_)
    rw [fst_seriesDiv]
    exact sortedUniq_nodup _
  · unfold get_model_based_recommendations
    cases hpa : parseAlgoName algo_name with
    | none => simp [exceptRecs, Except.toOption]
    | some k =>
        simp only [exceptRecs, Except.toOption, Option.getD_some]
        refine nodup_fst_take_sortDescR ?_
        refine (fst_filterMapPredict_sublist _ _).nodup ?_
        exact (List.filter_sublist _).nodup (uniqueFirst_nodup _)
  · rw [get_content_based_recommendations_def]
    cases hav : npAverageW (profile.map (fun p => encodeGenres (mlbClasses df) (splitPipe p.genres)))
        (profile.map (·.rating)) (mlbClasses df).length with
    | none => simp [optRecs]
    | some uvec =>
        simp only [optRecs, Option.getD_some]
        unfold contentRank
        exact nodup_fst_take_sortDescR (nodup_fst_dedupByTitle _)
  · unfold get_content_based_on_best_rated contentRank
    exact nodup_fst_take_sortDescR (nodup_fst_dedupByTitle _)

lemma PVal.descBefore_total (a b : PVal) : a.descBefore b ∨ b.descBefore a := by
  cases a <;> cases b <;> simp [PVal.descBefore] <;> exact le_total _ _

lemma PVal.descBefore_trans {a b c : PVal} (h1 : a.descBefore b)
    (h2 : b.descBefore c) : a.descBefore c := by
  cases a <;> cases b <;> cases c <;> simp_all [PVal.descBefore] <;> linarith

instance : IsTotal (String × ℝ) (fun p q => q.2 ≤ p.2) :=
  ⟨fun a b => le_total b.2 a.2⟩

instance : IsTrans (String × ℝ) (fun p q => q.2 ≤ p.2) :=
  ⟨fun _ _ _ hab hbc => le_trans hbc hab⟩

instance : IsTotal (String × PVal) (fun p q => p.2.descBefore q.2) :=
  ⟨fun a b => PVal.descBefore_total a.2 b.2⟩

instance : IsTrans (String × PVal) (fun p q => p.2.descBefore q.2) :=
  ⟨fun _ _ _ h1 h2 => PVal.descBefore_trans h1 h2⟩

lemma sorted_take_sortDescR (l : List (String × ℝ)) (n : ℕ) :
    List.Sorted (fun p q : String × ℝ => q.2 ≤ p.2) ((sortDescR l).take n) :=
  List.Pairwise.sublist (List.take_sublist n _) (List.sorted_insertionSort _ l)

lemma sorted_take_sortDescP (l : List (String × PVal)) (n : ℕ) :
    List.Sorted (fun p q : String × PVal => p.2.descBefore q.2) ((sortDescP l).take n) :=
  List.Pairwise.sublist (List.take_sublist n _) (List.sorted_insertionSort _ l)

/-- C6 (amended).  Every scorer returns its list sorted by score in
descending order in the order its `sort_values`/`sorted` call uses: for the
four real-scored scorers every adjacent (indeed every later) pair satisfies
`score(a) ≥ score(b)`; for the user-based scorer, whose scores can be
IEEE specials, the order is descending with NaN placed last
(`PVal.descBefore`), so `score(a) ≥ score(b)` holds whenever both scores
are non-NaN, and NaN-scored entries only occur at the end. -/
theorem all_strategies_output_sorted_desc
    (df : List RatingRow) (profile : List ProfileRow) (top_n : ℕ)
    (fit : AlgoKind → List TrainRow → String → String → Option ℝ)
    (algo_name : String) :
    List.Sorted (fun p q : String × ℝ => q.2 ≤ p.2)
      (get_item_user_recommendations df profile top_n) ∧
    List.Sorted (fun p q : String × PVal => p.2.descBefore q.2)
      (get_user_user_recommendations df profile top_n) ∧
    List.Sorted (fun p q : String × ℝ => q.2 ≤ p.2)
      (exceptRecs (get_model_based_recommendations fit df profile algo_name top_n)) ∧
    List.Sorted (fun p q : String × ℝ => q.2 ≤ p.2)
      (optRecs (get_content_based_recommendations df profile top_n)) ∧
    List.Sorted (fun p q : String × ℝ => q.2 ≤ p.2)
      (get_content_based_on_best_rated df profile top_n) := by
  refine ⟨?_, ?_, ?_, ?_, ?_⟩
  · exact sorted_take_sortDescR _ _
  · exact sorted_take_sortDescP _ _
  · unfold get_model_based_recommendations
    cases hpa : parseAlgoName algo_name with
    | none => simp [exceptRecs, Except.toOption]
    | some k =>
        simp only [exceptRecs, Except.toOption, Option.getD_some]
        exact sorted_take_sortDescR _ _
  · rw [get_content_based_recommendations_def]
    cases hav : npAverageW (profile.map (fun p => encodeGenres (mlbClasses df) (splitPipe p.genres)))
        (profile.map (·.rating)) (mlbClasses df).length with
    | none => simp [optRecs]
    | some uvec =>
        simp only [optRecs, Option.getD_some]
        exact sorted_take_sortDescR _ _
  · exact sorted_take_sortDescR _ _

lemma dotQ_self_nonneg (v : List ℚ) : 0 ≤ dotQ v v := by
  unfold dotQ
  induction v with
  | nil => simp
  | cons x xs ih =>
      simp only [List.zipWith_cons_cons, List.sum_cons]
      have : 0 ≤ x * x := mul_self_nonneg x
      linarith

lemma cosineSim_self {v : List ℚ} (h : dotQ v v ≠ 0) : cosineSim v v = 1 := by
  unfold cosineSim
  rw [Real.mul_self_sqrt (by exact_mod_cast dotQ_self_nonneg v)]
  rw [div_self (by exact_mod_cast h)]

lemma cosineSim_zero {x y : List ℚ} (h : dotQ x y = 0) : cosineSim x y = 0 := by
  unfold cosineSim
  rw [h]
  simp

def cexDf : List RatingRow :=
  [RatingRow.mk "u1" "A" 5 "X", RatingRow.mk "u1" "B" 0 "X",
   RatingRow.mk "u1" "C" 1 "X", RatingRow.mk "u1" "D" 1 "X",
   RatingRow.mk "u2" "E" 2 "X"]

def cexProfile : List ProfileRow :=
  [ProfileRow.mk "A" 5 "X", ProfileRow.mk "C" 1 "X", ProfileRow.mk "D" 1 "X"]

lemma cex_titles : datasetTitles cexDf = ["A", "B", "C", "D", "E"] := by decide

lemma cex_augUsers : augUsers cexDf = ["u1", "u2", "new_user"] := by decide

lemma cex_rowN : userRow cexDf cexProfile newUserId = [5, 0, 1, 1, 0] := by decide

lemma cex_pivot_single (u t : String) (q : ℚ)
    (h : cellRatings cexDf u t = [q]) : pivotVal cexDf u t = q := by
  unfold pivotVal
  rw [h]
  norm_num

lemma cex_pivot_empty (u t : String)
    (h : cellRatings cexDf u t = []) : pivotVal cexDf u t = 0 := by
  unfold pivotVal
  rw [h]
  norm_num

lemma cex_row1 : userRow cexDf cexProfile "u1" = [5, 0, 1, 1, 0] := by
  have hne : (("u1" : String) == newUserId) = false := by decide
  unfold userRow
  rw [hne]
  simp only [Bool.false_eq_true, if_false]
  rw [cex_titles]
  simp only [List.map_cons, List.map_nil]
  rw [cex_pivot_single _ _ 5 (by decide), cex_pivot_single _ _ 0 (by decide),
    cex_pivot_single _ _ 1 (by decide), cex_pivot_single _ _ 1 (by decide),
    cex_pivot_empty _ _ (by decide)]

lemma cex_row2 : userRow cexDf cexProfile "u2" = [0, 0, 0, 0, 2] := by
  have hne : (("u2" : String) == newUserId) = false := by decide
  unfold userRow
  rw [hne]
  simp only [Bool.false_eq_true, if_false]
  rw [cex_titles]
  simp only [List.map_cons, List.map_nil]
  rw [cex_pivot_empty _ _ (by decide), cex_pivot_empty _ _ (by decide),
    cex_pivot_empty _ _ (by decide), cex_pivot_empty _ _ (by decide),
    cex_pivot_single _ _ 2 (by decide)]

lemma cex_sim1 : simToNew cexDf cexProfile "u1" = 1 := by
  unfold simToNew
  rw [cex_row1, cex_rowN]
  exact cosineSim_self (by norm_num [dotQ])

lemma cex_sim2 : simToNew cexDf cexProfile "u2" = 0 := by
  unfold simToNew
  rw [cex_row2, cex_rowN]
  exact cosineSim_zero (by norm_num [dotQ])

lemma cex_similarUsers : similarUsers cexDf cexProfile = [("u1", 1), ("u2", 0)] := by
  unfold similarUsers
  rw [cex_augUsers]
  have hf : (["u1", "u2", "new_user"].filter (fun u => u != newUserId)) = ["u1", "u2"] := by
    decide
  rw [hf]
  simp only [List.map_cons, List.map_nil]
  rw [cex_sim1, cex_sim2]
  unfold sortDescR
  norm_num [List.insertionSort, List.orderedInsert]

lemma cex_rs1 : ratingSeries cexDf "u1" 1 =
    [("A", 5), ("B", 0), ("C", 1), ("D", 1), ("E", 0)] := by
  unfold ratingSeries
  rw [cex_titles]
  simp only [List.map_cons, List.map_nil]
  rw [cex_pivot_single _ _ 5 (by decide), cex_pivot_single _ _ 0 (by decide),
    cex_pivot_single _ _ 1 (by decide), cex_pivot_single _ _ 1 (by decide),
    cex_pivot_empty _ _ (by decide)]
  norm_num

lemma cex_rs2 : ratingSeries cexDf "u2" 0 =
    [("A", 0), ("B", 0), ("C", 0), ("D", 0), ("E", 0)] := by
  unfold ratingSeries
  rw [cex_titles]
  simp only [List.map_cons, List.map_nil]
  norm_num

lemma cex_ms1 : maskSeries cexDf "u1" 1 =
    [("A", 1), ("B", 0), ("C", 1), ("D", 1), ("E", 0)] := by
  unfold maskSeries
  rw [cex_titles]
  simp only [List.map_cons, List.map_nil]
  rw [cex_pivot_single _ _ 5 (by decide), cex_pivot_single _ _ 0 (by decide),
    cex_pivot_single _ _ 1 (by decide), cex_pivot_single _ _ 1 (by decide),
    cex_pivot_empty _ _ (by decide)]
  norm_num

lemma cex_ms2 : maskSeries cexDf "u2" 0 =
    [("A", 0), ("B", 0), ("C", 0), ("D", 0), ("E", 0)] := by
  unfold maskSeries
  rw [cex_titles]
  simp only [List.map_cons, List.map_nil]
  norm_num

lemma cex_accum : uuAccum cexDf cexProfile =
    ([("A", 5), ("B", 0), ("C", 1), ("D", 1), ("E", 0)],
     [("A", 1), ("B", 0), ("C", 1), ("D", 1), ("E", 0)]) := by
  unfold uuAccum
  rw [cex_similarUsers]
  simp only [List.foldl_cons, List.foldl_nil]
  rw [cex_rs1, cex_ms1, cex_rs2, cex_ms2]
  simp +decide [seriesAdd, seriesKeys, sortedUniq, uniqueFirst,
    List.insertionSort, List.orderedInsert, seriesGet]

lemma pdiv_nan : pdiv 0 0 = PVal.nan := by
  unfold pdiv
  norm_num

lemma pdiv_finite (a b : ℝ) (hb : b ≠ 0) : pdiv a b = PVal.val (a / b) := by
  unfold pdiv
  rw [if_neg hb]

lemma cex_uu_eval : get_user_user_recommendations cexDf cexProfile 5 =
    [("B", PVal.nan), ("E", PVal.nan)] := by
  unfold get_user_user_recommendations
  rw [cex_accum]
  have hdiv : seriesDiv [("A", 5), ("B", 0), ("C", 1), ("D", 1), ("E", 0)]
      [("A", 1), ("B", 0), ("C", 1), ("D", 1), ("E", 0)] =
      [("A", PVal.val 5), ("B", PVal.nan), ("C", PVal.val 1), ("D", PVal.val 1),
       ("E", PVal.nan)] := by
    unfold seriesDiv
    have hk : sortedUniq (seriesKeys [("A", 5), ("B", 0), ("C", 1), ("D", 1), ("E", 0)] ++
        seriesKeys [("A", 1), ("B", 0), ("C", 1), ("D", 1), ("E", 0)]) =
        ["A", "B", "C", "D", "E"] := by decide
    rw [hk]
    simp +decide [seriesGet, List.find?]
    rw [pdiv_finite 5 1 (by norm_num), pdiv_finite 1 1 (by norm_num)]
    norm_num [pdiv_nan]
  rw [hdiv]
  have hfil : ([("A", PVal.val 5), ("B", PVal.nan), ("C", PVal.val 1),
      ("D", PVal.val 1), ("E", PVal.nan)].filter
        (fun p => !(profileTitles cexProfile).contains p.1)) =
      [("B", PVal.nan), ("E", PVal.nan)] := by
    simp +decide [profileTitles, cexProfile, List.filter]
  rw [hfil]
  unfold sortDescP
  simp [List.insertionSort, List.orderedInsert, PVal.descBefore]

/-- C2, at the failing input.  In the user-based scorer on `cexDf` with
profile `cexProfile`, the title `"B"` has normalization weight 0 (no user
with nonzero similarity rated it), yet the returned list contains
`("B", NaN)`: the title is not excluded and its undefined score is
propagated into the output, contradicting the specified behaviour. -/
theorem user_user_zero_weight_title_not_excluded :
    seriesGet (uuAccum cexDf cexProfile).2 "B" = 0 ∧
    ("B", PVal.nan) ∈ get_user_user_recommendations cexDf cexProfile 5 := by
  constructor
  · rw [cex_accum]
    simp +decide [seriesGet]
  · rw [cex_uu_eval]
    simp

/-- C6 counterexample.  On `cexDf`/`cexProfile` the user-based scorer
returns `[("B", NaN), ("E", NaN)]`; its adjacent pair fails
`score(a) ≥ score(b)` under IEEE float comparison (`PVal.fge`), because a
comparison with NaN is always false.  So the output is not sorted by score
in the claimed sense. -/
theorem user_user_output_not_sorted_by_float_ge :
    get_user_user_recommendations cexDf cexProfile 5 =
      [("B", PVal.nan), ("E", PVal.nan)] ∧
    ¬ List.Chain' (fun a b : String × PVal => a.2.fge b.2)
      (get_user_user_recommendations cexDf cexProfile 5) := by
  refine ⟨cex_uu_eval, ?_⟩
  rw [cex_uu_eval]
  intro h
  rcases h with _ | ⟨hfge, _⟩
  simp [PVal.fge] at *

/-- C3, at the failing inputs.  When every profile rating is 0 the
genre-average scorer does not fall back to anything: `np.average` with
zero-sum weights raises `ZeroDivisionError` (modelled by `none`), so no
recommendation list is produced at all. -/
theorem content_based_all_zero_ratings_fails (df : List RatingRow)
    (profile : List ProfileRow) (top_n : ℕ)
    (h : ∀ r ∈ profile, r.rating = 0) :
    get_content_based_recommendations df profile top_n = none := by
  rw [get_content_based_recommendations_def]
  have hsum : (profile.map (·.rating)).sum = 0 := by
    apply List.sum_eq_zero
    intro x hx
    rcases List.mem_map.mp hx with ⟨r, hr, hrx⟩
    rw [← hrx]
    exact h r hr
  have hnone : npAverageW
      (profile.map (fun p => encodeGenres (mlbClasses df) (splitPipe p.genres)))
      (profile.map (·.rating)) (mlbClasses df).length = none := by
    unfold npAverageW
    rw [if_pos hsum]
  rw [hnone]

def c3Profile : List ProfileRow :=
  [ProfileRow.mk "A" 0 "X", ProfileRow.mk "B" 0 "Y", ProfileRow.mk "C" 0 "X|Y"]

/-- Witness for C3 at a concrete dataset and all-zero profile. -/
theorem content_based_all_zero_ratings_fails_witness :
    (∀ r ∈ c3Profile, r.rating = 0) ∧
    get_content_based_recommendations wDf c3Profile 5 = none :=
  ⟨by decide, content_based_all_zero_ratings_fails wDf c3Profile 5 (by decide)⟩

/-- C4.  An algorithm name outside {SVD, KNN, NMF} makes the latent-factor
scorer fail with the `ValueError` (InvalidArgument) message, and no model
training occurs before that failure: the result does not depend on the
training/prediction behaviour `fit` at all. -/
theorem model_based_unknown_algo_fails_before_training
    (fit fit2 : AlgoKind → List TrainRow → String → String → Option ℝ)
    (df : List RatingRow) (profile : List ProfileRow)
    (algo_name : String) (top_n : ℕ)
    (h1 : algo_name ≠ "SVD") (h2 : algo_name ≠ "KNN") (h3 : algo_name ≠ "NMF") :
    get_model_based_recommendations fit df profile algo_name top_n =
      Except.error "Algorithme non reconnu. Utilisez 'SVD', 'KNN' ou 'NMF'." ∧
    get_model_based_recommendations fit df profile algo_name top_n =
      get_model_based_recommendations fit2 df profile algo_name top_n := by
  have hpa : parseAlgoName algo_name = none := by
    unfold parseAlgoName
    rw [if_neg h1, if_neg h2, if_neg h3]
  constructor
  · unfold get_model_based_recommendations
    rw [hpa]
  · unfold get_model_based_recommendations
    rw [hpa]

/-- Witness for C4 at the concrete algorithm name `"SlopeOne"` and two
different training behaviours. -/
theorem model_based_unknown_algo_fails_before_training_witness :
    ("SlopeOne" ≠ "SVD" ∧ "SlopeOne" ≠ "KNN" ∧ "SlopeOne" ≠ "NMF") ∧
    (get_model_based_recommendations (fun _ _ _ _ => none) wDf wProfile "SlopeOne" 5 =
      Except.error "Algorithme non reconnu. Utilisez 'SVD', 'KNN' ou 'NMF'." ∧
    get_model_based_recommendations (fun _ _ _ _ => none) wDf wProfile "SlopeOne" 5 =
      get_model_based_recommendations (fun _ _ _ _ => some 1) wDf wProfile "SlopeOne" 5) :=
  ⟨⟨by decide, by decide, by decide⟩,
    model_based_unknown_algo_fails_before_training (fun _ _ _ _ => none)
      (fun _ _ _ _ => some 1) wDf wProfile "SlopeOne" 5
      (by decide) (by decide) (by decide)⟩

lemma itemUserScores_filter_present (df : List RatingRow) (profile : List ProfileRow) :
    itemUserScores df profile =
      itemUserScores df (profile.filter (fun r => (datasetTitles df).contains r.title)) := by
  unfold itemUserScores
  suffices h : ∀ init : List (String × ℝ),
      profile.foldl
        (fun scores row =>
          if (datasetTitles df).contains row.title then
            seriesAdd scores (itemSimSeries df row.title row.rating)
          else scores) init =
      (profile.filter (fun r => (datasetTitles df).contains r.title)).foldl
        (fun scores row =>
          if (datasetTitles df).contains row.title then
            seriesAdd scores (itemSimSeries df row.title row.rating)
          else scores) init by
    exact h []
  induction profile with
  | nil => intro init; simp
  | cons x xs ih =>
      intro init
      by_cases hx : (datasetTitles df).contains x.title
      · simp only [List.foldl_cons, List.filter_cons, hx, if_pos]
        exact ih _
      · have hx' : (datasetTitles df).contains x.title = false := by
          simpa using hx
        simp only [List.foldl_cons, List.filter_cons, hx', if_false,
          Bool.false_eq_true]
        exact ih _

/-- C8.  In the item-based collaborative scorer a profile title absent from
the dataset contributes nothing and causes no error: the result is exactly
the result for the profile restricted to the titles present in the
dataset. -/
theorem item_user_absent_profile_titles_skipped (df : List RatingRow)
    (profile : List ProfileRow) (top_n : ℕ) :
    get_item_user_recommendations df profile top_n =
      get_item_user_recommendations df
        (profile.filter (fun r => (datasetTitles df).contains r.title)) top_n := by
  unfold get_item_user_recommendations
  rw [← itemUserScores_filter_present df profile]
  have hf : (itemUserScores df profile).filter
      (fun p => !(profileTitles profile).contains p.1) =
      (itemUserScores df profile).filter
        (fun p => !(profileTitles
          (profile.filter (fun r => (datasetTitles df).contains r.title))).contains p.1) := by
    apply List.filter_congr
    intro p hp
    have hkey : p.1 ∈ datasetTitles df :=
      keys_itemUserScores_sub df profile p.1 (List.mem_map_of_mem Prod.fst hp)
    have hiff : p.1 ∈ profileTitles profile ↔ p.1 ∈ profileTitles
        (profile.filter (fun r => (datasetTitles df).contains r.title)) := by
      constructor
      · intro hm
        rcases List.mem_map.mp hm with ⟨r, hr, hrt⟩
        apply List.mem_map.mpr
        refine ⟨r, ?_, hrt⟩
        apply List.mem_filter.mpr
        refine ⟨hr, ?_⟩
        rw [hrt]
        simpa using hkey
      · intro hc
        unfold profileTitles at hc ⊢
        exact ((profile.filter_sublist).map (·.title)).subset hc
    have hb : ∀ (l : List String) (t : String), t ∈ l → l.contains t = true :=
      fun l t h => List.elem_eq_true_of_mem h
    have hnb : ∀ (l : List String) (t : String), t ∉ l → l.contains t = false := by
      intro l t h
      cases hc : l.contains t
      · rfl
      · exact absurd (List.mem_of_elem_eq_true hc) h
    by_cases hm : p.1 ∈ profileTitles profile
    · rw [hb _ _ hm, hb _ _ (hiff.mp hm)]
    · rw [hnb _ _ hm, hnb _ _ (fun hc => hm (hiff.mpr hc))]
  rw [hf]

lemma listMaxQ_fold_spec (r : List ℚ) :
    ∀ x : ℚ, (r.foldl max x = x ∨ r.foldl max x ∈ r) ∧
      x ≤ r.foldl max x ∧ ∀ y ∈ r, y ≤ r.foldl max x := by
  induction r with
  | nil => intro x; simp
  | cons y ys ih =>
      intro x
      rcases ih (max x y) with ⟨hmem, hle, hall⟩
      simp only [List.foldl_cons]
      refine ⟨?_, ?_, ?_⟩
      · rcases hmem with h | h
        · rcases max_choice x y with hm | hm
          · exact Or.inl (by rw [h, hm])
          · exact Or.inr (by rw [h, hm]; exact List.mem_cons_self _ _)
        · exact Or.inr (List.mem_cons_of_mem _ h)
      · exact le_trans (le_max_left x y) hle
      · intro z hz
        rcases List.mem_cons.mp hz with rfl | hz
        · exact le_trans (le_max_right x z) hle
        · exact hall z hz

lemma listMaxQ_mem {l : List ℚ} (h : l ≠ []) : listMaxQ l ∈ l := by
  cases l with
  | nil => exact absurd rfl h
  | cons x r =>
      simp only [listMaxQ]
      rcases (listMaxQ_fold_spec r x).1 with h1 | h1
      · rw [h1]; exact List.mem_cons_self _ _
      · exact List.mem_cons_of_mem _ h1

lemma listMaxQ_ge {l : List ℚ} : ∀ y ∈ l, y ≤ listMaxQ l := by
  cases l with
  | nil => simp
  | cons x r =>
      intro y hy
      simp only [listMaxQ]
      rcases (listMaxQ_fold_spec r x) with ⟨_, hle, hall⟩
      rcases List.mem_cons.mp hy with rfl | hy
      · exact hle
      · exact hall y hy

lemma indexOf_first_hit (v : ℚ) : ∀ (l : List ℚ) (i : ℕ), i < l.length →
    l.getD i 0 = v → (∀ k, k < i → l.getD k 0 ≠ v) → l.indexOf v = i := by
  intro l
  induction l with
  | nil => intro i hi; simp at hi
  | cons x xs ih =>
      intro i hi hv hk
      cases i with
      | zero =>
          simp only [List.getD_cons_zero] at hv
          rw [List.indexOf_cons, beq_iff_eq.mpr hv]
          rfl
      | succ n =>
          have hx : x ≠ v := by
            have := hk 0 (Nat.succ_pos n)
            simpa using this
          rw [List.indexOf_cons]
          have hbeq : (x == v) = false := by
            simpa using hx
          rw [hbeq]
          simp only [cond_false]
          have hn : xs.indexOf v = n := by
            apply ih n (by simpa using hi)
            · simpa using hv
            · intro k hkn
              have := hk (k + 1) (Nat.succ_lt_succ hkn)
              simpa using this
          rw [hn]

lemma firstMaxIdx_eq (l : List ℚ) (i : ℕ) (hi : i < l.length)
    (hmax : ∀ k, k < l.length → l.getD k 0 ≤ l.getD i 0)
    (hfirst : ∀ k, k < i → l.getD k 0 < l.getD i 0) :
    firstMaxIdx l = i := by
  have hne : l ≠ [] := by
    intro h
    rw [h] at hi
    simp at hi
  have hMv : listMaxQ l = l.getD i 0 := by
    apply le_antisymm
    · rcases List.mem_iff_getElem.mp (listMaxQ_mem hne) with ⟨k, hk, hkv⟩
      rw [← hkv, ← List.getD_eq_getElem l 0 hk]
      exact hmax k hk
    · apply listMaxQ_ge
      rw [List.getD_eq_getElem l 0 hi]
      exact List.getElem_mem _
  unfold firstMaxIdx
  rw [hMv]
  apply indexOf_first_hit _ _ _ hi rfl
  intro k hk
  exact ne_of_lt (hfirst k hk)

/-- C5.  In the content-based best-rated scorer, when entry `i` attains the
maximum rating and every earlier entry is strictly smaller (so in
particular when a later entry `j` ties with it), `idxmax` selects entry
`i`, and the whole result equals the ranking computed from entry `i`'s
genre vector alone (profile titles still excluded). -/
theorem content_best_rated_tie_breaks_to_first (df : List RatingRow)
    (profile : List ProfileRow) (top_n : ℕ) (i : ℕ)
    (hi : i < profile.length)
    (hmax : ∀ k, k < profile.length →
      (profile.getD k default).rating ≤ (profile.getD i default).rating)
    (hfirst : ∀ k, k < i →
      (profile.getD k default).rating < (profile.getD i default).rating)
    (htie : ∃ j, j < profile.length ∧ i < j ∧
      (profile.getD j default).rating = (profile.getD i default).rating) :
    get_content_based_on_best_rated df profile top_n =
      contentRank df
        (encodeGenres (mlbClasses df) (splitPipe (profile.getD i default).genres))
        (profileTitles profile) top_n := by
  unfold get_content_based_on_best_rated
  have hidx : firstMaxIdx (profile.map (·.rating)) = i := by
    apply firstMaxIdx_eq _ _ (by simpa using hi)
    · intro k hk
      have hk' : k < profile.length := by simpa using hk
      have e1 : (profile.map (·.rating)).getD k 0 = (profile.getD k default).rating := by
        rw [List.getD_eq_getElem _ 0 hk, List.getElem_map, List.getD_eq_getElem _ _ hk']
      have e2 : (profile.map (·.rating)).getD i 0 = (profile.getD i default).rating := by
        rw [List.getD_eq_getElem _ 0 (by simpa using hi), List.getElem_map,
          List.getD_eq_getElem _ _ hi]
      rw [e1, e2]
      exact hmax k hk'
    · intro k hk
      have hk' : k < profile.length := lt_trans hk hi
      have e1 : (profile.map (·.rating)).getD k 0 = (profile.getD k default).rating := by
        rw [List.getD_eq_getElem _ 0 (by simpa using hk'), List.getElem_map,
          List.getD_eq_getElem _ _ hk']
      have e2 : (profile.map (·.rating)).getD i 0 = (profile.getD i default).rating := by
        rw [List.getD_eq_getElem _ 0 (by simpa using hi), List.getElem_map,
          List.getD_eq_getElem _ _ hi]
      rw [e1, e2]
      exact hfirst k hk
  rw [hidx]

def wTieProfile : List ProfileRow :=
  [ProfileRow.mk "A" 3 "X", ProfileRow.mk "B" 5 "Y", ProfileRow.mk "C" 5 "Z"]

/-- Witness for C5: in `wTieProfile` entries 1 and 2 tie for the maximum
rating, and the scorer behaves as if queried with entry 1's genres. -/
theorem content_best_rated_tie_breaks_to_first_witness :
    (1 < wTieProfile.length ∧
      (∀ k, k < wTieProfile.length →
        (wTieProfile.getD k default).rating ≤ (wTieProfile.getD 1 default).rating) ∧
      (∀ k, k < 1 →
        (wTieProfile.getD k default).rating < (wTieProfile.getD 1 default).rating) ∧
      (∃ j, j < wTieProfile.length ∧ 1 < j ∧
        (wTieProfile.getD j default).rating = (wTieProfile.getD 1 default).rating)) ∧
    get_content_based_on_best_rated wDf wTieProfile 5 =
      contentRank wDf
        (encodeGenres (mlbClasses wDf) (splitPipe (wTieProfile.getD 1 default).genres))
        (profileTitles wTieProfile) 5 :=
  ⟨⟨by decide, by decide, by decide, by decide⟩,
    content_best_rated_tie_breaks_to_first wDf wTieProfile 5 1
      (by decide) (by decide) (by decide) (by decide)⟩

lemma getD_set_ne {α : Type} [Inhabited α] (l : List α) (v : α) (i j : ℕ)
    (h : i ≠ j) : (l.set i v).getD j default = l.getD j default := by
  unfold List.getD
  rw [List.get?_eq_getElem?, List.get?_eq_getElem?, List.getElem?_set_ne h]

/-- C10.  `save_user_profile` adds the `method` column only to an internal
`.copy()` of the caller's dataframe: after the call the caller's
dataframe object is unchanged. -/
theorem save_user_profile_does_not_mutate_caller (s : PStore) (profileId : ℕ)
    (method : String) (existing : Option (List HistEntry))
    (h : profileId < s.length) :
    (save_user_profile s profileId method existing).1.getD profileId default =
      s.getD profileId default := by
  unfold save_user_profile dfCopy dfSetMethod
  simp only
  rw [getD_set_ne _ _ _ _ (by omega)]
  exact List.getD_append _ _ _ _ h

/-- Witness for C10 on a one-dataframe heap. -/
theorem save_user_profile_does_not_mutate_caller_witness :
    0 < ([PDFrame.mk wProfile none] : PStore).length ∧
    (save_user_profile [PDFrame.mk wProfile none] 0 "KNN" none).1.getD 0 default =
      ([PDFrame.mk wProfile none] : PStore).getD 0 default :=
  ⟨by decide,
    save_user_profile_does_not_mutate_caller [PDFrame.mk wProfile none] 0 "KNN" none
      (by decide)⟩

/-! ## Lemmas about the embedded Python string operations -/

lemma pySplitFuel_congr (sep : List Char) (hsep : sep ≠ []) :
    ∀ (f1 : ℕ) (l : List Char) (f2 : ℕ), l.length < f1 → l.length < f2 →
      pySplitFuel sep f1 l = pySplitFuel sep f2 l := by
  intro f1
  induction f1 with
  | zero => intro l f2 h1; omega
  | succ f1 ih =>
      intro l f2 h1 h2
      cases f2 with
      | zero => omega
      | succ f2 =>
          cases l with
          | nil => rfl
          | cons c rest =>
              have hsl : 1 ≤ sep.length := List.length_pos.mpr hsep
              simp only [pySplitFuel]
              by_cases hp : sep.isPrefixOf (c :: rest) = true
              · rw [if_pos hp, if_pos hp]
                have hd : ((c :: rest).drop sep.length).length < f1 := by
                  rw [List.length_drop]
                  simp only [List.length_cons] at h1 ⊢
                  omega
                have hd2 : ((c :: rest).drop sep.length).length < f2 := by
                  rw [List.length_drop]
                  simp only [List.length_cons] at h2 ⊢
                  omega
                rw [ih _ f2 hd hd2]
              · rw [if_neg hp, if_neg hp]
                have hr : rest.length < f1 := by
                  simp only [List.length_cons] at h1
                  omega
                have hr2 : rest.length < f2 := by
                  simp only [List.length_cons] at h2
                  omega
                rw [ih rest f2 hr hr2]

lemma pySplitFuel_eq_pySplit (sep : List Char) (hsep : sep ≠ []) (f : ℕ)
    (l : List Char) (hf : l.length < f) :
    pySplitFuel sep f l = pySplit sep l :=
  pySplitFuel_congr sep hsep f l (l.length + 1) hf (Nat.lt_succ_self _)

/-- Splitting `A ++ sep ++ B` cuts exactly at the shown separator, provided
no occurrence of `sep` starts inside `A` (condition phrased on the nonempty
suffixes of `A`, which is how the splitter walks the text). -/
lemma pySplit_chunk (sep : List Char) (hsep : sep ≠ []) (A B : List Char)
    (hA : ∀ S : List Char, S ≠ [] → S <:+ A →
      sep.isPrefixOf (S ++ sep ++ B) = false) :
    pySplit sep (A ++ sep ++ B) = A :: pySplit sep B := by
  have hsl : 1 ≤ sep.length := List.length_pos.mpr hsep
  suffices h : ∀ (A : List Char) (f : ℕ), (A ++ sep ++ B).length < f →
      (∀ S : List Char, S ≠ [] → S <:+ A →
        sep.isPrefixOf (S ++ sep ++ B) = false) →
      pySplitFuel sep f (A ++ sep ++ B) = A :: pySplit sep B by
    exact h A ((A ++ sep ++ B).length + 1) (Nat.lt_succ_self _) hA
  intro A
  induction A with
  | nil =>
      intro f hf _
      simp only [List.nil_append] at hf ⊢
      cases f with
      | zero => omega
      | succ f =>
          cases hsep2 : sep with
          | nil => exact absurd hsep2 hsep
          | cons s0 srest =>
              subst hsep2
              simp only [List.cons_append, pySplitFuel, List.append_eq]
              have hpre : (s0 :: srest).isPrefixOf (s0 :: (srest ++ B)) = true := by
                rw [List.isPrefixOf_iff_prefix]
                have : s0 :: (srest ++ B) = (s0 :: srest) ++ B := by simp
                rw [this]
                exact List.prefix_append _ _
              rw [if_pos hpre]
              have hdrop : (s0 :: (srest ++ B)).drop (s0 :: srest).length = B := by
                have : s0 :: (srest ++ B) = (s0 :: srest) ++ B := by simp
                rw [this, List.drop_left]
              rw [hdrop]
              have hBf : B.length < f := by
                simp only [List.length_cons, List.length_append] at hf
                omega
              rw [pySplitFuel_eq_pySplit (s0 :: srest) hsep f B hBf]
  | cons c A' ih =>
      intro f hf hA'
      cases f with
      | zero => simp only [List.length_append] at hf; omega
      | succ f =>
          simp only [List.cons_append, pySplitFuel, List.append_eq]
          have hc : sep.isPrefixOf (c :: (A' ++ (sep ++ B))) = false := by
        
            have := hA' (c :: A') (by simp) (List.suffix_refl _)
            simpa [List.append_assoc] using this
          rw [if_neg (by simp [hc])]
          have hlen : (A' ++ sep ++ B).length < f := by
            simp only [List.length_cons, List.length_append] at hf ⊢
            omega
          have hhyp : ∀ S : List Char, S ≠ [] → S <:+ A' →
              sep.isPrefixOf (S ++ sep ++ B) = false := by
            intro S hS hSfx
            exact hA' S hS (hSfx.trans (List.suffix_cons c A'))
          rw [ih f hlen hhyp]

lemma pySplit_single_chunk (c : Char) (A B : List Char) (hc : c ∉ A) :
    pySplit [c] (A ++ [c] ++ B) = A :: pySplit [c] B := by
  apply pySplit_chunk [c] (by simp) A B
  intro S hS hSfx
  cases S with
  | nil => exact absurd rfl hS
  | cons s0 S' =>
      have hs0 : s0 ∈ A := hSfx.sublist.subset (List.mem_cons_self _ _)
      have hbeq : (c == s0) = false :=
        beq_eq_false_iff_ne.mpr (fun h => hc (h ▸ hs0))
      simp [List.isPrefixOf, hbeq]

/-- No two consecutive dashes occur in the list. -/
def noDD (l : List Char) : Prop := ¬ (['-', '-'] <:+: l)

instance (l : List Char) : Decidable (noDD l) :=
  inferInstanceAs (Decidable (¬ (['-', '-'] <:+: l)))

lemma pair_infix_append {a b : Char} : ∀ (X Y : List Char), [a, b] <:+: (X ++ Y) →
    [a, b] <:+: X ∨ [a, b] <:+: Y ∨ (X.getLast? = some a ∧ Y.head? = some b) := by
  intro X
  induction X with
  | nil => intro Y h; exact Or.inr (Or.inl (by simpa using h))
  | cons x X' ih =>
      intro Y h
      simp only [List.cons_append] at h
      rcases List.infix_cons_iff.mp h with hpre | hinf
      · rcases hpre with ⟨t, ht⟩
        simp only [List.cons_append, List.nil_append, List.cons.injEq] at ht
        obtain ⟨hax, ht2⟩ := ht
        cases X' with
        | nil =>
            have hbY : Y.head? = some b := by
              simp only [List.nil_append] at ht2
              rw [← ht2]
              rfl
            exact Or.inr (Or.inr ⟨by simp [hax], hbY⟩)
        | cons x1 X'' =>
            simp only [List.cons_append, List.cons.injEq] at ht2
            obtain ⟨hbx1, _⟩ := ht2
            left
            apply List.IsPrefix.isInfix
            exact ⟨X'', by simp [hax, hbx1]⟩
      · rcases ih Y hinf with h1 | h1 | h1
        · exact Or.inl (List.infix_cons_iff.mpr (Or.inr h1))
        · exact Or.inr (Or.inl h1)
        · right; right
          refine ⟨?_, h1.2⟩
          cases X' with
          | nil => simp at h1
          | cons x1 X'' => rw [List.getLast?_cons_cons]; exact h1.1

lemma noDD_append {X Y : List Char} (hX : noDD X) (hY : noDD Y)
    (hb : X.getLast? ≠ some '-' ∨ Y.head? ≠ some '-') : noDD (X ++ Y) := by
  intro h
  rcases pair_infix_append X Y h with h1 | h1 | h1
  · exact hX h1
  · exact hY h1
  · rcases hb with hb | hb
    · exact hb h1.1
    · exact hb h1.2

lemma pySplit_dash_chunk (A B : List Char) (hA : noDD A)
    (hlast : A.getLast? ≠ some '-') :
    pySplit dash50 (A ++ dash50 ++ B) = A :: pySplit dash50 B := by
  apply pySplit_chunk dash50 (by decide) A B
  intro S hS hSfx
  by_contra hcon
  have hpre : dash50 <+: S ++ dash50 ++ B := by
    rw [← List.isPrefixOf_iff_prefix]
    simpa using hcon
  have h50 : dash50 = '-' :: '-' :: List.replicate 48 '-' := by decide
  rcases hpre with ⟨t, ht⟩
  cases S with
  | nil => exact absurd rfl hS
  | cons s0 S' =>
      cases S' with
      | nil =>
          rw [h50] at ht
          simp only [List.cons_append, List.singleton_append] at ht
          have h1 : s0 = '-' := by
            injection ht with ha _
            exact ha.symm
          rcases hSfx with ⟨u, hu⟩
          apply hlast
          rw [← hu, List.getLast?_concat, h1]
      | cons s1 S'' =>
          rw [h50] at ht
          simp only [List.cons_append] at ht
          have h1 : s0 = '-' := by
            injection ht with ha _
            exact ha.symm
          have h2 : s1 = '-' := by
            injection ht with _ hrest
            injection hrest with hb _
            exact hb.symm
          apply hA
          rcases hSfx with ⟨u, hu⟩
          exact ⟨u, S'', by rw [← hu, h1, h2]; simp⟩

lemma dropWhile_append_all (p : Char → Bool) (m w : List Char)
    (hm : ∀ c ∈ m, p c = true) :
    List.dropWhile p (m ++ w) = List.dropWhile p w := by
  induction m with
  | nil => rfl
  | cons c m ih =>
      simp only [List.cons_append, List.dropWhile_cons, hm c (by simp), if_true]
      exact ih (fun c hc => hm c (by simp [hc]))

lemma rdropWhile_append_all (p : Char → Bool) (z m : List Char)
    (hm : ∀ c ∈ m, p c = true) :
    List.rdropWhile p (z ++ m) = List.rdropWhile p z := by
  unfold List.rdropWhile
  rw [List.reverse_append, dropWhile_append_all p m.reverse z.reverse
    (fun c hc => hm c (by simpa using hc))]

lemma rdropWhile_eq_self_of_getLast (p : Char → Bool) (l : List Char) (c : Char)
    (h : l.getLast? = some c) (hc : p c = false) :
    List.rdropWhile p l = l := by
  rw [List.rdropWhile_eq_self_iff]
  intro hl
  rw [List.getLast?_eq_getLast l hl] at h
  have : c = l.getLast hl := by
    injection h with h1
    exact h1.symm
  rw [← this, hc]
  simp

lemma rdropWhile_append_left (p : Char → Bool) (X Y : List Char)
    (h : List.rdropWhile p Y ≠ []) :
    List.rdropWhile p (X ++ Y) = X ++ List.rdropWhile p Y := by
  unfold List.rdropWhile at h ⊢
  rw [List.reverse_append, List.dropWhile_append]
  have hne : (List.dropWhile p Y.reverse).isEmpty = false := by
    cases hdw : List.dropWhile p Y.reverse with
    | nil => rw [hdw] at h; simp at h
    | cons a l => rfl
  rw [hne]
  simp

lemma pyStrip_ne_nil_of_mem {l : List Char} {c : Char} (hc : c ∈ l)
    (hcs : isPySpace c = false) : pyStrip l ≠ [] := by
  intro h
  unfold pyStrip at h
  have hall := List.rdropWhile_eq_nil_iff.mp h
  have hcd : c ∈ List.dropWhile isPySpace l := by
    have := List.takeWhile_append_dropWhile isPySpace l
    rw [← this] at hc
    rcases List.mem_append.mp hc with h1 | h1
    · exact absurd (List.mem_takeWhile_imp h1) (by rw [hcs]; simp)
    · exact h1
  rw [hall c hcd] at hcs
  simp at hcs

/-- Both ends of the list are free of Python whitespace (i.e. `strip` is a
no-op), the shape in which "already trimmed" enters the history theorem. -/
def trimmedEnds (l : List Char) : Bool :=
  (match l.head? with
   | none => true
   | some c => !isPySpace c) &&
  (match l.getLast? with
   | none => true
   | some c => !isPySpace c)

lemma pyStrip_eq_self {l : List Char} (h : trimmedEnds l = true) : pyStrip l = l := by
  unfold trimmedEnds at h
  rw [Bool.and_eq_true] at h
  rcases h with ⟨h1, h2⟩
  unfold pyStrip
  cases l with
  | nil => rfl
  | cons c rest =>
      simp only [List.head?_cons] at h1
      have hc : isPySpace c = false := by
        cases hic : isPySpace c
        · rfl
        · rw [hic] at h1; simp at h1
      rw [List.dropWhile_cons, hc]
      simp only [Bool.false_eq_true, if_false]
      cases hg : (c :: rest).getLast? with
      | none => simp at hg
      | some d =>
          rw [hg] at h2
          have hd : isPySpace d = false := by simpa using h2
          exact rdropWhile_eq_self_of_getLast _ _ d hg hd

/-- Characters Python `str.splitlines` treats as line breaks (the history
parsing model splits on `'\n'`, so clean fields must avoid all of them). -/
def lineBreakish (c : Char) : Bool :=
  c == '\n' || c == '\r' || c == '\x0b' || c == '\x0c' || c == '\x1c' ||
  c == '\x1d' || c == '\x1e' || c == '\x85' || c == ' ' || c == ' '

/-- A text field safe for the history round trip: single-line (no line
break characters) and with no two adjacent dashes, so it cannot
contribute to a 50-dash delimiter run.  Hyphenated values — the method
names `"Item-User"` and `"User-User"` the app passes to the sink, or
hyphenated user names and movie titles — all satisfy it. -/
def cleanField (s : String) : Prop :=
  (∀ c ∈ s.data, lineBreakish c = false) ∧ noDD s.data

instance (s : String) : Decidable (cleanField s) :=
  inferInstanceAs (Decidable ((∀ c ∈ s.data, lineBreakish c = false) ∧ noDD s.data))

lemma cleanField_no_nl {s : String} (h : cleanField s) : '\n' ∉ s.data := by
  intro hc
  have := h.1 _ hc
  simp [lineBreakish] at this

/-- The session block without its trailing delimiter. -/
def sessionBody (userName : String) (profile : List ProfileRow)
    (method : String) (recs : List (String × ℚ)) : List Char :=
  "👤 ".data ++ userName.data ++ ['\n'] ++
  "⚙️ Méthode : ".data ++ method.data ++ ['\n', '\n'] ++
  "🎬 Films notés :\n".data ++
  (profile.flatMap profileLine) ++
  "\n⭐ Recommandations :\n".data ++
  (recs.flatMap recLine) ++ ['\n']

lemma sessionBlock_split (n : String) (p : List ProfileRow) (m : String)
    (r : List (String × ℚ)) :
    sessionBlock n p m r = sessionBody n p m r ++ dash50 ++ ['\n', '\n'] := by
  unfold sessionBlock sessionBody
  simp [List.append_assoc]

lemma noDD_nil : noDD ([] : List Char) := by decide

lemma noDD_profileLine (r : ProfileRow) (ht : cleanField r.title)
    (hr : cleanField (toString r.rating)) : noDD (profileLine r) := by
  unfold profileLine
  refine noDD_append (X := _ ++ _ ++ _ ++ _) ?_ (by decide) (Or.inr (by decide))
  refine noDD_append (X := _ ++ _ ++ _) ?_ hr.2 ?_
  · refine noDD_append (X := _ ++ _) ?_ (by decide) (Or.inr (by decide))
    refine noDD_append (by decide) ht.2
      (Or.inl (by decide))
  · left
    rw [List.getLast?_append]
    have : (" - Note : ".data).getLast? = some ' ' := by decide
    rw [this]
    simp

lemma getLast?_profileLine (r : ProfileRow) : (profileLine r).getLast? = some '\n' := by
  unfold profileLine
  exact List.getLast?_concat _

lemma noDD_recLine (x : String × ℚ) (ht : cleanField x.1)
    (hr : cleanField (toString (round2 x.2))) : noDD (recLine x) := by
  unfold recLine
  refine noDD_append (X := _ ++ _ ++ _ ++ _) ?_ (by decide) (Or.inr (by decide))
  refine noDD_append (X := _ ++ _ ++ _) ?_ hr.2 ?_
  · refine noDD_append (X := _ ++ _) ?_ (by decide) (Or.inr (by decide))
    refine noDD_append (by decide) ht.2
      (Or.inl (by decide))
  · left
    rw [List.getLast?_append]
    have : (" - Score : ".data).getLast? = some ' ' := by decide
    rw [this]
    simp

lemma getLast?_recLine (x : String × ℚ) : (recLine x).getLast? = some '\n' := by
  unfold recLine
  exact List.getLast?_concat _

lemma noDD_flatMap_profile (p : List ProfileRow)
    (h : ∀ r ∈ p, cleanField r.title ∧ cleanField (toString r.rating)) :
    noDD (p.flatMap profileLine) := by
  induction p with
  | nil => exact noDD_nil
  | cons r rs ih =>
      rw [List.flatMap_cons]
      refine noDD_append (noDD_profileLine r (h r (by simp)).1 (h r (by simp)).2)
        (ih (fun x hx => h x (by simp [hx]))) ?_
      left
      rw [getLast?_profileLine]
      simp

lemma noDD_flatMap_recs (rs : List (String × ℚ))
    (h : ∀ x ∈ rs, cleanField x.1 ∧ cleanField (toString (round2 x.2))) :
    noDD (rs.flatMap recLine) := by
  induction rs with
  | nil => exact noDD_nil
  | cons x xs ih =>
      rw [List.flatMap_cons]
      refine noDD_append (noDD_recLine x (h x (by simp)).1 (h x (by simp)).2)
        (ih (fun y hy => h y (by simp [hy]))) ?_
      left
      rw [getLast?_recLine]
      simp

lemma noDD_sessionBody (n m : String) (p : List ProfileRow) (r : List (String × ℚ))
    (hn : cleanField n) (hm : cleanField m)
    (hp : ∀ x ∈ p, cleanField x.title ∧ cleanField (toString x.rating))
    (hr : ∀ x ∈ r, cleanField x.1 ∧ cleanField (toString (round2 x.2))) :
    noDD (sessionBody n p m r) := by
  unfold sessionBody
  have h2 : noDD ("👤 ".data ++ n.data) :=
    noDD_append (by decide) hn.2
      (Or.inl (by decide))
  have h3 : noDD ("👤 ".data ++ n.data ++ ['\n']) :=
    noDD_append h2 (by decide) (Or.inr (by decide))
  have h4 : noDD ("👤 ".data ++ n.data ++ ['\n'] ++ "⚙️ Méthode : ".data) :=
    noDD_append h3 (by decide) (Or.inr (by decide))
  have g4 : ("👤 ".data ++ n.data ++ ['\n'] ++ "⚙️ Méthode : ".data).getLast? =
      some ' ' := by
    rw [List.getLast?_append]
    have hq : ("⚙️ Méthode : ".data).getLast? = some ' ' := by decide
    rw [hq]
    rfl
  have h5 : noDD ("👤 ".data ++ n.data ++ ['\n'] ++ "⚙️ Méthode : ".data ++ m.data) :=
    noDD_append h4 hm.2
      (Or.inl (by rw [g4]; decide))
  have h6 : noDD ("👤 ".data ++ n.data ++ ['\n'] ++ "⚙️ Méthode : ".data ++ m.data ++
      ['\n', '\n']) :=
    noDD_append h5 (by decide) (Or.inr (by decide))
  have h7 : noDD ("👤 ".data ++ n.data ++ ['\n'] ++ "⚙️ Méthode : ".data ++ m.data ++
      ['\n', '\n'] ++ "🎬 Films notés :\n".data) :=
    noDD_append h6 (by decide) (Or.inr (by decide))
  have g7 : ("👤 ".data ++ n.data ++ ['\n'] ++ "⚙️ Méthode : ".data ++ m.data ++
      ['\n', '\n'] ++ "🎬 Films notés :\n".data).getLast? = some '\n' := by
    rw [List.getLast?_append]
    have hq : ("🎬 Films notés :\n".data).getLast? = some '\n' := by decide
    rw [hq]
    rfl
  have h8 : noDD ("👤 ".data ++ n.data ++ ['\n'] ++ "⚙️ Méthode : ".data ++ m.data ++
      ['\n', '\n'] ++ "🎬 Films notés :\n".data ++ (p.flatMap profileLine)) :=
    noDD_append h7 (noDD_flatMap_profile p hp) (Or.inl (by rw [g7]; decide))
  have h9 : noDD ("👤 ".data ++ n.data ++ ['\n'] ++ "⚙️ Méthode : ".data ++ m.data ++
      ['\n', '\n'] ++ "🎬 Films notés :\n".data ++ (p.flatMap profileLine) ++
      "\n⭐ Recommandations :\n".data) :=
    noDD_append h8 (by decide) (Or.inr (by decide))
  have g9 : ("👤 ".data ++ n.data ++ ['\n'] ++ "⚙️ Méthode : ".data ++ m.data ++
      ['\n', '\n'] ++ "🎬 Films notés :\n".data ++ (p.flatMap profileLine) ++
      "\n⭐ Recommandations :\n".data).getLast? = some '\n' := by
    rw [List.getLast?_append]
    have hq : ("\n⭐ Recommandations :\n".data).getLast? = some '\n' := by decide
    rw [hq]
    rfl
  have h10 : noDD ("👤 ".data ++ n.data ++ ['\n'] ++ "⚙️ Méthode : ".data ++ m.data ++
      ['\n', '\n'] ++ "🎬 Films notés :\n".data ++ (p.flatMap profileLine) ++
      "\n⭐ Recommandations :\n".data ++ (r.flatMap recLine)) :=
    noDD_append h9 (noDD_flatMap_recs r hr) (Or.inl (by rw [g9]; decide))
  exact noDD_append h10 (by decide) (Or.inr (by decide))

lemma getLast?_sessionBody (n m : String) (p : List ProfileRow)
    (r : List (String × ℚ)) : (sessionBody n p m r).getLast? = some '\n' := by
  unfold sessionBody
  exact List.getLast?_concat _

lemma dropWhile_eq_self_of_head (p : Char → Bool) (l : List Char) (c : Char)
    (h : l.head? = some c) (hc : p c = false) : List.dropWhile p l = l := by
  cases l with
  | nil => simp at h
  | cons a rest =>
      simp only [List.head?_cons, Option.some.injEq] at h
      rw [List.dropWhile_cons, h, hc]
      simp

lemma trimmedEnds_getLast {l : List Char} (h : trimmedEnds l = true) (hl : l ≠ []) :
    ∃ d, l.getLast? = some d ∧ isPySpace d = false := by
  refine ⟨l.getLast hl, List.getLast?_eq_getLast l hl, ?_⟩
  unfold trimmedEnds at h
  rw [Bool.and_eq_true] at h
  rcases h with ⟨_, h2⟩
  rw [List.getLast?_eq_getLast l hl] at h2
  simpa using h2

lemma parseSession_eq (s : List Char) :
    parseSession s =
      (String.mk (pyStrip ((((pySplit ['\n'] (pyStrip s)).find?
          (fun l => userMarkerChars.isPrefixOf l)).getD
            "Utilisateur inconnu".data).drop 2)),
       String.mk (pyStrip ((((pySplit ['\n'] (pyStrip s)).find?
          (fun l => gearMarkerChars.isPrefixOf l)).getD []).drop 10))) := rfl

lemma parseSession_body (n m : String) (p : List ProfileRow) (r : List (String × ℚ))
    (hn_clean : cleanField n) (hn_trim : trimmedEnds n.data = true)
    (hm_clean : cleanField m) (hm_trim : trimmedEnds m.data = true)
    (hm_ne : m ≠ "") :
    parseSession (sessionBody n p m r) = (n, ": " ++ m) := by
  have hmd : m.data ≠ [] := by
    intro h
    exact hm_ne (String.ext (by rw [h]))
  have hT1ne : List.rdropWhile isPySpace
      ('\n' :: ("🎬 Films notés :\n".data ++ (p.flatMap profileLine ++
        ("\n⭐ Recommandations :\n".data ++ (r.flatMap recLine ++ ['\n']))))) ≠ [] := by
    intro hnil
    have hall := List.rdropWhile_eq_nil_iff.mp hnil
    have hmem : '🎬' ∈ '\n' :: ("🎬 Films notés :\n".data ++ (p.flatMap profileLine ++
        ("\n⭐ Recommandations :\n".data ++ (r.flatMap recLine ++ ['\n'])))) := by
      apply List.mem_cons_of_mem
      apply List.mem_append_left
      decide
    have := hall _ hmem
    simp [isPySpace] at this
  have hstrip : pyStrip (sessionBody n p m r) =
      (['👤', ' '] ++ n.data ++ ['\n'] ++ ("⚙️ Méthode : ".data ++ m.data) ++ ['\n']) ++
      List.rdropWhile isPySpace
        ('\n' :: ("🎬 Films notés :\n".data ++ (p.flatMap profileLine ++
          ("\n⭐ Recommandations :\n".data ++ (r.flatMap recLine ++ ['\n']))))) := by
    have hshapeX : sessionBody n p m r =
        (['👤', ' '] ++ n.data ++ ['\n'] ++ ("⚙️ Méthode : ".data ++ m.data) ++ ['\n']) ++
        ('\n' :: ("🎬 Films notés :\n".data ++ (p.flatMap profileLine ++
          ("\n⭐ Recommandations :\n".data ++ (r.flatMap recLine ++ ['\n']))))) := by
      unfold sessionBody
      have h1 : "👤 ".data = ['👤', ' '] := by decide
      have h2 : ['\n', '\n'] = ['\n'] ++ ['\n'] := by decide
      rw [h1, h2]
      simp [List.append_assoc]
    unfold pyStrip
    rw [dropWhile_eq_self_of_head isPySpace _ '👤' (by rw [hshapeX]; rfl) (by decide)]
    rw [hshapeX]
    exact rdropWhile_append_left _ _ _ hT1ne
  rw [parseSession_eq, hstrip]
  have hchunk1 : pySplit ['\n']
      ((['👤', ' '] ++ n.data ++ ['\n'] ++ ("⚙️ Méthode : ".data ++ m.data) ++ ['\n']) ++
        List.rdropWhile isPySpace
          ('\n' :: ("🎬 Films notés :\n".data ++ (p.flatMap profileLine ++
            ("\n⭐ Recommandations :\n".data ++ (r.flatMap recLine ++ ['\n'])))))) =
      (['👤', ' '] ++ n.data) ::
        ("⚙️ Méthode : ".data ++ m.data) ::
        pySplit ['\n'] (List.rdropWhile isPySpace
          ('\n' :: ("🎬 Films notés :\n".data ++ (p.flatMap profileLine ++
            ("\n⭐ Recommandations :\n".data ++ (r.flatMap recLine ++ ['\n'])))))) := by
    have hre : (['👤', ' '] ++ n.data ++ ['\n'] ++ ("⚙️ Méthode : ".data ++ m.data) ++ ['\n']) ++
        List.rdropWhile isPySpace
          ('\n' :: ("🎬 Films notés :\n".data ++ (p.flatMap profileLine ++
            ("\n⭐ Recommandations :\n".data ++ (r.flatMap recLine ++ ['\n']))))) =
        (['👤', ' '] ++ n.data) ++ ['\n'] ++
          (("⚙️ Méthode : ".data ++ m.data) ++ ['\n'] ++
            List.rdropWhile isPySpace
              ('\n' :: ("🎬 Films notés :\n".data ++ (p.flatMap profileLine ++
                ("\n⭐ Recommandations :\n".data ++ (r.flatMap recLine ++ ['\n'])))))) := by
      simp [List.append_assoc]
    rw [hre]
    rw [pySplit_single_chunk '\n' (['👤', ' '] ++ n.data) _ ?hn1]
    case hn1 =>
      intro hc
      rcases List.mem_append.mp hc with h1 | h1
      · simp at h1
      · exact cleanField_no_nl hn_clean h1
    rw [pySplit_single_chunk '\n' ("⚙️ Méthode : ".data ++ m.data) _ ?hn2]
    case hn2 =>
      intro hc
      rcases List.mem_append.mp hc with h1 | h1
      · have : '\n' ∉ "⚙️ Méthode : ".data := by decide
        exact this h1
      · exact cleanField_no_nl hm_clean h1
  rw [hchunk1]
  have hfind1 : List.find? (fun l => userMarkerChars.isPrefixOf l)
      ((['👤', ' '] ++ n.data) ::
        ("⚙️ Méthode : ".data ++ m.data) ::
        pySplit ['\n'] (List.rdropWhile isPySpace
          ('\n' :: ("🎬 Films notés :\n".data ++ (p.flatMap profileLine ++
            ("\n⭐ Recommandations :\n".data ++ (r.flatMap recLine ++ ['\n']))))))) =
      some (['👤', ' '] ++ n.data) := by
    apply List.find?_cons_of_pos
    simp [userMarkerChars, List.isPrefixOf]
  have hfind2 : List.find? (fun l => gearMarkerChars.isPrefixOf l)
      ((['👤', ' '] ++ n.data) ::
        ("⚙️ Méthode : ".data ++ m.data) ::
        pySplit ['\n'] (List.rdropWhile isPySpace
          ('\n' :: ("🎬 Films notés :\n".data ++ (p.flatMap profileLine ++
            ("\n⭐ Recommandations :\n".data ++ (r.flatMap recLine ++ ['\n']))))))) =
      some ("⚙️ Méthode : ".data ++ m.data) := by
    rw [List.find?_cons_of_neg]
    · apply List.find?_cons_of_pos
      have hgd : "⚙️ Méthode : ".data = '⚙' :: '️' :: " Méthode : ".data := by decide
      rw [hgd]
      simp [gearMarkerChars, List.isPrefixOf]
    · simp [gearMarkerChars, List.isPrefixOf]
  rw [hfind1, hfind2]
  simp only [Option.getD_some]
  have hdrop1 : (['👤', ' '] ++ n.data).drop 2 = n.data := by
    have : (2 : ℕ) = (['👤', ' '] : List Char).length := rfl
    rw [this, List.drop_left]
  have hdrop2 : ("⚙️ Méthode : ".data ++ m.data).drop 10 = [' ', ':', ' '] ++ m.data := by
    rw [List.drop_append_of_le_length (by decide)]
    have : ("⚙️ Méthode : ".data).drop 10 = [' ', ':', ' '] := by decide
    rw [this]
  rw [hdrop1, hdrop2]
  rw [pyStrip_eq_self hn_trim]
  have hstrip2 : pyStrip ([' ', ':', ' '] ++ m.data) = [':', ' '] ++ m.data := by
    unfold pyStrip
    have h1 : List.dropWhile isPySpace ([' ', ':', ' '] ++ m.data) =
        [':', ' '] ++ m.data := by
      simp +decide [List.cons_append, List.dropWhile_cons]
    rw [h1]
    rcases trimmedEnds_getLast hm_trim hmd with ⟨d, hd, hds⟩
    apply rdropWhile_eq_self_of_getLast _ _ d _ hds
    rw [List.getLast?_append_of_ne_nil _ hmd]
    exact hd
  rw [hstrip2]
  constructor

lemma head?_append_of_head {l : List Char} {c : Char} (h : l.head? = some c)
    (l' : List Char) : (l ++ l').head? = some c := by
  cases l with
  | nil => simp at h
  | cons a rest => simpa using h

lemma head?_sessionBody (n : String) (p : List ProfileRow) (m : String)
    (r : List (String × ℚ)) : (sessionBody n p m r).head? = some '👤' := by
  unfold sessionBody
  rw [show "👤 ".data = ['👤', ' '] from by decide]
  repeat rw [List.append_assoc]
  rfl

lemma mem_sessionBody_head (n : String) (p : List ProfileRow) (m : String)
    (r : List (String × ℚ)) : '👤' ∈ sessionBody n p m r := by
  unfold sessionBody
  rw [show "👤 ".data = ['👤', ' '] from by decide]
  repeat rw [List.append_assoc]
  exact List.mem_cons_self _ _

lemma parseSession_prepend_newlines (s : List Char) :
    parseSession (['\n', '\n'] ++ s) = parseSession s := by
  rw [parseSession_eq, parseSession_eq]
  have h : pyStrip (['\n', '\n'] ++ s) = pyStrip s := by
    unfold pyStrip
    rw [dropWhile_append_all isPySpace ['\n', '\n'] s (by decide)]
  rw [h]

/-- C9 (amended).  Writing two session blocks to an empty text log and
parsing it back recovers exactly two sessions; each reports the written
user name correctly, but the method is recovered with a spurious `": "`
prefix, because `method_line[10:]` cuts inside `"⚙️ Méthode : "` (13 code
points) instead of after it.  Hypotheses: names and methods are trimmed,
methods nonempty, and all text fields (names, methods, titles and the
rendered numbers) are single-line with no two adjacent dashes — which
admits every hyphenated value the app produces, such as the methods
`"Item-User"` and `"User-User"` and hyphenated titles. -/
theorem history_text_roundtrip_two_sessions
    (n1 m1 n2 m2 : String) (p1 p2 : List ProfileRow) (r1 r2 : List (String × ℚ))
    (hn1c : cleanField n1) (hn1t : trimmedEnds n1.data = true)
    (hm1c : cleanField m1) (hm1t : trimmedEnds m1.data = true) (hm1ne : m1 ≠ "")
    (hn2c : cleanField n2) (hn2t : trimmedEnds n2.data = true)
    (hm2c : cleanField m2) (hm2t : trimmedEnds m2.data = true) (hm2ne : m2 ≠ "")
    (hp1 : ∀ x ∈ p1, cleanField x.title ∧ cleanField (toString x.rating))
    (hr1 : ∀ x ∈ r1, cleanField x.1 ∧ cleanField (toString (round2 x.2)))
    (hp2 : ∀ x ∈ p2, cleanField x.title ∧ cleanField (toString x.rating))
    (hr2 : ∀ x ∈ r2, cleanField x.1 ∧ cleanField (toString (round2 x.2))) :
    parseHistory (append_user_history_as_text
      (append_user_history_as_text [] n1 p1 m1 r1) n2 p2 m2 r2) =
      [(n1, ": " ++ m1), (n2, ": " ++ m2)] := by
  have hlog : append_user_history_as_text
      (append_user_history_as_text [] n1 p1 m1 r1) n2 p2 m2 r2 =
      (sessionBody n1 p1 m1 r1 ++ dash50 ++ ['\n', '\n']) ++
        (sessionBody n2 p2 m2 r2 ++ dash50 ++ ['\n', '\n']) := by
    unfold append_user_history_as_text
    rw [sessionBlock_split, sessionBlock_split]
    simp
  have hW : pyStrip ((sessionBody n1 p1 m1 r1 ++ dash50 ++ ['\n', '\n']) ++
      (sessionBody n2 p2 m2 r2 ++ dash50 ++ ['\n', '\n'])) =
      (sessionBody n1 p1 m1 r1 ++ dash50 ++ ['\n', '\n']) ++
        (sessionBody n2 p2 m2 r2 ++ dash50) := by
    unfold pyStrip
    have hhead : ((sessionBody n1 p1 m1 r1 ++ dash50 ++ ['\n', '\n']) ++
        (sessionBody n2 p2 m2 r2 ++ dash50 ++ ['\n', '\n'])).head? = some '👤' := by
      apply head?_append_of_head
      apply head?_append_of_head
      apply head?_append_of_head
      exact head?_sessionBody n1 p1 m1 r1
    rw [dropWhile_eq_self_of_head isPySpace _ '👤' hhead (by decide)]
    have hre : (sessionBody n1 p1 m1 r1 ++ dash50 ++ ['\n', '\n']) ++
        (sessionBody n2 p2 m2 r2 ++ dash50 ++ ['\n', '\n']) =
        ((sessionBody n1 p1 m1 r1 ++ dash50 ++ ['\n', '\n']) ++
          (sessionBody n2 p2 m2 r2 ++ dash50)) ++ ['\n', '\n'] := by
      simp [List.append_assoc]
    rw [hre, rdropWhile_append_all isPySpace _ ['\n', '\n'] (by decide)]
    refine rdropWhile_eq_self_of_getLast _ _ '-' ?_ (by decide)
    rw [List.getLast?_append]
    rw [List.getLast?_append_of_ne_nil _ (by decide : dash50 ≠ [])]
    rw [show dash50.getLast? = some '-' from by decide]
    rfl
  have hsplit : pySplit dash50
      ((sessionBody n1 p1 m1 r1 ++ dash50 ++ ['\n', '\n']) ++
        (sessionBody n2 p2 m2 r2 ++ dash50)) =
      [sessionBody n1 p1 m1 r1, ['\n', '\n'] ++ sessionBody n2 p2 m2 r2, []] := by
    have hre : (sessionBody n1 p1 m1 r1 ++ dash50 ++ ['\n', '\n']) ++
        (sessionBody n2 p2 m2 r2 ++ dash50) =
        sessionBody n1 p1 m1 r1 ++ dash50 ++
          ((['\n', '\n'] ++ sessionBody n2 p2 m2 r2) ++ dash50 ++ []) := by
      simp [List.append_assoc]
    rw [hre]
    rw [pySplit_dash_chunk _ _
      (noDD_sessionBody n1 m1 p1 r1 hn1c hm1c hp1 hr1)
      (by rw [getLast?_sessionBody]; decide)]
    rw [pySplit_dash_chunk _ _ ?hd2 ?hl2]
    case hd2 =>
      refine noDD_append (by decide) (noDD_sessionBody n2 m2 p2 r2 hn2c hm2c hp2 hr2) ?_
      right
      rw [head?_sessionBody]
      decide
    case hl2 =>
      rw [List.getLast?_append, getLast?_sessionBody]
      decide
    rfl
  unfold parseHistory
  rw [hlog, hW, hsplit]
  have hne1 : (pyStrip (sessionBody n1 p1 m1 r1)).isEmpty = false := by
    cases hh : pyStrip (sessionBody n1 p1 m1 r1) with
    | nil => exact absurd hh (pyStrip_ne_nil_of_mem (mem_sessionBody_head n1 p1 m1 r1) (by decide))
    | cons a l => rfl
  have hne2 : (pyStrip (['\n', '\n'] ++ sessionBody n2 p2 m2 r2)).isEmpty = false := by
    cases hh : pyStrip (['\n', '\n'] ++ sessionBody n2 p2 m2 r2) with
    | nil =>
        refine absurd hh (@pyStrip_ne_nil_of_mem _ '👤' ?_ (by decide))
        exact List.mem_append_right _ (mem_sessionBody_head n2 p2 m2 r2)
    | cons a l => rfl
  rw [List.filter_cons, hne1]
  simp only [Bool.not_false, if_true]
  rw [List.filter_cons, hne2]
  simp only [Bool.not_false, if_true]
  rw [show (List.filter (fun s => !(pyStrip s).isEmpty) [[]] : List (List Char)) = []
    from by decide]
  rw [List.map_cons, List.map_cons, List.map_nil]
  rw [parseSession_body n1 m1 p1 r1 hn1c hn1t hm1c hm1t hm1ne]
  rw [parseSession_prepend_newlines]
  rw [parseSession_body n2 m2 p2 r2 hn2c hn2t hm2c hm2t hm2ne]

def c9Profile : List ProfileRow :=
  [ProfileRow.mk "Titanic" 5 "Drama|Romance",
   ProfileRow.mk "Spider-Man" 3 "Action|Adventure",
   ProfileRow.mk "Up" 1 "Animation"]

/-- Witness for C9 (amended) at two concrete sessions, using the app's own
hyphenated method names and a hyphenated movie title. -/
theorem history_text_roundtrip_two_sessions_witness :
    (cleanField "Alice" ∧ trimmedEnds "Alice".data = true ∧
     cleanField "Item-User" ∧ trimmedEnds "Item-User".data = true ∧
     "Item-User" ≠ "" ∧
     cleanField "Bob" ∧ trimmedEnds "Bob".data = true ∧
     cleanField "User-User" ∧ trimmedEnds "User-User".data = true ∧
     "User-User" ≠ "" ∧
     (∀ x ∈ c9Profile, cleanField x.title ∧ cleanField (toString x.rating)) ∧
     (∀ x ∈ ([] : List (String × ℚ)), cleanField x.1 ∧
       cleanField (toString (round2 x.2)))) ∧
    parseHistory (append_user_history_as_text
      (append_user_history_as_text [] "Alice" c9Profile "Item-User" [])
      "Bob" c9Profile "User-User" []) =
      [("Alice", ": Item-User"), ("Bob", ": User-User")] :=
  ⟨⟨by decide, by decide, by decide, by decide, by decide, by decide, by decide,
    by decide, by decide, by decide, by decide, by decide⟩,
   history_text_roundtrip_two_sessions "Alice" "Item-User" "Bob" "User-User"
     c9Profile c9Profile [] [] (by decide) (by decide) (by decide) (by decide)
     (by decide) (by decide) (by decide) (by decide) (by decide) (by decide)
     (by decide) (by decide) (by decide) (by decide)⟩

set_option maxRecDepth 100000 in
/-- C9 counterexample.  After writing exactly 2 sessions (users Alice/Bob,
methods Item-User/User-User — two of the method strings `app.py` passes to
the sink) to an empty log, the sidebar parse recovers 2 sessions with the
right user names, but the recovered methods are `": Item-User"` and
`": User-User"` — not the methods that were written, because
`method_line[10:]` keeps the last 3 characters of the `"⚙️ Méthode : "`
prefix. -/
theorem history_text_method_not_recovered :
    parseHistory (append_user_history_as_text
      (append_user_history_as_text [] "Alice" c9Profile "Item-User" [])
      "Bob" c9Profile "User-User" []) =
      [("Alice", ": Item-User"), ("Bob", ": User-User")] ∧
    (": Item-User" : String) ≠ "Item-User" ∧
    (": User-User" : String) ≠ "User-User" :=
  ⟨by decide, by decide, by decide⟩
